import Mathlib

/-
  Verification of the mesh-compilation pipeline of `src/user/user_mesh.cc`
  (mjCMesh / mjCSkin).  The C++ code is shallowly embedded: machine floats
  and doubles become exact rationals (with `ratSqrt` standing in for the
  floating-point square root; every concrete input below is a perfect
  square, where `ratSqrt` is exact), byte buffers become `List Nat`,
  mjCError exceptions become `Except`, mju_error hard aborts become a
  distinguished `fatal` outcome, and the external collaborators (qhull,
  mju_eig3) become explicit function parameters.

  Rational arithmetic is written with the kernel-evaluable wrappers
  `qadd`, `qsub`, `qmul`, `qdiv`, `qneg`, `qabs`, `qmin`, `qmax` (the
  library's `Rat.add` etc. are irreducible); the lemmas `qadd_eq` ...
  identify them with the field operations of ℚ.
-/

namespace MjMesh

deriving instance DecidableEq for Except

/- ---------------- kernel-evaluable rational arithmetic ---------------- -/

def qadd (a b : ℚ) : ℚ := mkRat (a.num * b.den + b.num * a.den) (a.den * b.den)

def qsub (a b : ℚ) : ℚ := mkRat (a.num * b.den - b.num * a.den) (a.den * b.den)

def qmul (a b : ℚ) : ℚ := mkRat (a.num * b.num) (a.den * b.den)

def qneg (a : ℚ) : ℚ := mkRat (-a.num) a.den

def qinv (a : ℚ) : ℚ := Rat.divInt (a.den : Int) a.num

def qdiv (a b : ℚ) : ℚ := qmul a (qinv b)

def qabs (a : ℚ) : ℚ := if a < 0 then qneg a else a

def qmin (a b : ℚ) : ℚ := if a ≤ b then a else b

def qmax (a b : ℚ) : ℚ := if a ≤ b then b else a

/- mjMINVAL from mujoco/mjmodel.h: the degeneracy threshold 1e-15. -/
def mjMINVAL : ℚ := mkRat 1 (10 ^ 15)

/- Integer square root by Newton iteration with explicit fuel (structural
   recursion, so that concrete instances evaluate inside the kernel). -/
def isqrtGo (n : Nat) : Nat → Nat → Nat
  | x, 0 => x
  | x, fuel + 1 =>
    let x2 := (x + n / x) / 2
    if x2 < x then isqrtGo n x2 fuel else x

def natSqrt (n : Nat) : Nat := if n ≤ 1 then n else isqrtGo n n n

/- Model of the floating-point square root on nonnegative rationals.
   Exact whenever numerator and denominator are perfect squares. -/
def ratSqrt (q : ℚ) : ℚ := qdiv ((natSqrt q.num.toNat : Nat) : ℚ) ((natSqrt q.den : Nat) : ℚ)

/- 3-vectors of rationals, standing in for float[3] / double[3]. -/
abbrev Vec3 : Type := ℚ × ℚ × ℚ

def v3add (a b : Vec3) : Vec3 := (qadd a.1 b.1, qadd a.2.1 b.2.1, qadd a.2.2 b.2.2)
def v3sub (a b : Vec3) : Vec3 := (qsub a.1 b.1, qsub a.2.1 b.2.1, qsub a.2.2 b.2.2)
def v3smul (c : ℚ) (a : Vec3) : Vec3 := (qmul c a.1, qmul c a.2.1, qmul c a.2.2)
def v3dot (a b : Vec3) : ℚ := qadd (qadd (qmul a.1 b.1) (qmul a.2.1 b.2.1)) (qmul a.2.2 b.2.2)

def v3comp (a : Vec3) : Nat → ℚ
  | 0 => a.1
  | 1 => a.2.1
  | _ => a.2.2

/- mju_cross: c = a × b. -/
def v3cross (a b : Vec3) : Vec3 :=
  (qsub (qmul a.2.1 b.2.2) (qmul a.2.2 b.2.1),
   qsub (qmul a.2.2 b.1) (qmul a.1 b.2.2),
   qsub (qmul a.1 b.2.1) (qmul a.2.1 b.1))

/- Unit quaternions, stored (w, x, y, z) as in mujoco. -/
abbrev Quat4 : Type := ℚ × ℚ × ℚ × ℚ

/- `_triangle` (user_mesh.cc:53): area, unit normal and center of a triangle.
   The source returns 0 and leaves the normal unnormalized when the cross
   product is shorter than mjMINVAL. -/
def triangle (v1 v2 v3 : Vec3) : ℚ × Vec3 × Vec3 :=
  let center := v3smul (mkRat 1 3) (v3add (v3add v1 v2) v3)
  let b := v3sub v2 v1
  let c := v3sub v3 v1
  let n := v3cross b c
  let len := ratSqrt (v3dot n n)
  if len < mjMINVAL then (0, n, center)
  else (qdiv len 2, v3smul (qinv len) n, center)

def triangleArea (v1 v2 v3 : Vec3) : ℚ := (triangle v1 v2 v3).1

/- Right-handedness test shared by all loaders (user_mesh.cc:624,689,812):
   `righthand = (scale[0]*scale[1]*scale[2] > 0)`. -/
def righthand (scale : Vec3) : Bool := decide (qmul (qmul scale.1 scale.2.1) scale.2.2 > 0)

/- ---------------- byte-buffer primitives ---------------- -/

/- A file is a list of bytes; reads beyond the end give 0 (never reached on
   size-checked paths, mirroring the fact that the C code only reads inside
   the buffer after its size checks). -/
def byteAt (bs : List Nat) (i : Nat) : Nat := bs.getD i 0

/- Little-endian 32-bit word at byte offset i. -/
def leWord (bs : List Nat) (i : Nat) : Nat :=
  byteAt bs i + 256 * byteAt bs (i + 1) + 65536 * byteAt bs (i + 2) +
    16777216 * byteAt bs (i + 3)

/- Reinterpret a 32-bit word as a signed int (two's complement), as happens
   when the C code stores `*(unsigned int*)` or `*(int*)` into an `int`. -/
def toInt32 (w : Nat) : Int := if w < 2 ^ 31 then (w : Int) else (w : Int) - 2 ^ 32

def i32At (bs : List Nat) (i : Nat) : Int := toInt32 (leWord bs i)

/- An IEEE-754 single decoded from its bit pattern: the classification used
   by the loader's std::isnan / std::isinf checks plus the exact value. -/
structure F32 where
  isnan : Bool
  isinf : Bool
  val : ℚ
deriving DecidableEq, Repr

def decodeF32 (w : Nat) : F32 :=
  let sign := w / 2 ^ 31 % 2
  let expo := w / 2 ^ 23 % 2 ^ 8
  let mant := w % 2 ^ 23
  if expo = 255 then
    { isnan := decide (mant ≠ 0), isinf := decide (mant = 0), val := 0 }
  else
    let mag : ℚ :=
      if expo = 0 then qdiv ((mant : Nat) : ℚ) (((2 ^ 149 : Nat) : Nat) : ℚ)
      else qmul (((2 ^ 23 + mant : Nat) : Nat) : ℚ)
        (if 150 ≤ expo then (((2 ^ (expo - 150) : Nat) : Nat) : ℚ)
         else qinv (((2 ^ (150 - expo) : Nat) : Nat) : ℚ))
    { isnan := false, isinf := false, val := if sign = 1 then qneg mag else mag }

def f32At (bs : List Nat) (i : Nat) : F32 := decodeF32 (leWord bs i)

def f32ValAt (bs : List Nat) (i : Nat) : ℚ := (f32At bs i).val

/- ---------------- LoadSTL (user_mesh.cc:688) ---------------- -/

/- Structured failures of the STL loader, one per throw site. -/
inductive StlErr where
  | empty            -- "STL file is empty"
  | malformedHeader  -- "invalid header in STL file"
  | badFaceCount     -- "number of faces should be between 1 and 200000"
  | sizeMismatch     -- "STL file has wrong size"
  | invalidFloat     -- "STL file contains invalid vertices" (NaN / Inf)
  | coordOverflow    -- "vertex coordinates exceed maximum bounds"
  | removeFailed     -- "error removing vertices from mesh" (sanity check)
deriving DecidableEq, Repr

/- The per-coordinate checks, in source order: NaN/Inf first, then
   `fabs(v[k]) > pow(2, 30)`. -/
def stlCheckCoord (f : F32) : Option StlErr :=
  if f.isnan || f.isinf then some .invalidFloat
  else if qabs f.val > ((2 ^ 30 : Nat) : ℚ) then some .coordOverflow
  else none

/- Vertex j of face i lives at byte offset 84 + 50*i + 12*(j+1); the three
   coordinates are checked in order k = 0, 1, 2. -/
def stlCorner (bs : List Nat) (i j : Nat) : Except StlErr Vec3 :=
  let base := 84 + 50 * i + 12 * (j + 1)
  let c0 := f32At bs base
  let c1 := f32At bs (base + 4)
  let c2 := f32At bs (base + 8)
  match stlCheckCoord c0 with
  | some e => .error e
  | none =>
    match stlCheckCoord c1 with
    | some e => .error e
    | none =>
      match stlCheckCoord c2 with
      | some e => .error e
      | none => .ok (c0.val, c1.val, c2.val)

/- Face-slot assignment: `face[3*i+j] = nvert` when righthand or j = 0, else
   `face[3*i+3-j] = nvert`, with nvert = 3*i + j at that point. -/
def writeSlot (t : Nat × Nat × Nat) (pos v : Nat) : Nat × Nat × Nat :=
  match pos with
  | 0 => (v, t.2.1, t.2.2)
  | 1 => (t.1, v, t.2.2)
  | _ => (t.1, t.2.1, v)

def stlFaceTriple (rh : Bool) (i : Nat) : Nat × Nat × Nat :=
  (List.range 3).foldl
    (fun t j => writeSlot t (if rh || j == 0 then j else 3 - j) (3 * i + j)) (0, 0, 0)

/- One face record: check and read its three corners (emitting three new
   vertices) and produce the index triple. -/
def stlFace (bs : List Nat) (rh : Bool) (i : Nat) :
    Except StlErr ((Nat × Nat × Nat) × List Vec3) :=
  match stlCorner bs i 0 with
  | .error e => .error e
  | .ok u0 =>
    match stlCorner bs i 1 with
    | .error e => .error e
    | .ok u1 =>
      match stlCorner bs i 2 with
      | .error e => .error e
      | .ok u2 => .ok (stlFaceTriple rh i, [u0, u1, u2])

/- The face loop, faces i, i+1, ... (`cnt` faces remaining). -/
def stlFaces (bs : List Nat) (rh : Bool) : Nat → Nat → Except StlErr (List ((Nat × Nat × Nat) × List Vec3))
  | 0, _ => .ok []
  | cnt + 1, i =>
    match stlFace bs rh i with
    | .error e => .error e
    | .ok f =>
      match stlFaces bs rh cnt (i + 1) with
      | .error e => .error e
      | .ok rest => .ok (f :: rest)

/- The staged mesh an STL load produces before vertex deduplication. -/
structure StlRaw where
  nface : Int
  face : List (Nat × Nat × Nat)
  vert : List Vec3
deriving DecidableEq, Repr

def loadSTLraw (bs : List Nat) (scale : Vec3) : Except StlErr StlRaw :=
  if bs.length = 0 then .error .empty
  else if bs.length < 84 then .error .malformedHeader
  else
    let nf : Int := toInt32 (leWord bs 80)
    if nf < 1 ∨ nf > 200000 then .error .badFaceCount
    else if nf * 50 ≠ (bs.length : Int) - 84 then .error .sizeMismatch
    else
      match stlFaces bs (righthand scale) nf.toNat 0 with
      | .error e => .error e
      | .ok items => .ok ⟨nf, items.map Prod.fst, items.flatMap Prod.snd⟩

/- ---------------- RemoveRepeated (user_mesh.cc:515) ---------------- -/

/- Sort key of vertex i: `vert[3i] + 1e-2*vert[3i+1] + 1e-4*vert[3i+2]`. -/
def vertKey (vs : List Vec3) (i : Nat) : ℚ :=
  let v := vs.getD i (0, 0, 0)
  qadd (qadd v.1 (qmul (mkRat 1 100) v.2.1)) (qmul (mkRat 1 10000) v.2.2)

def vertKeyLe (vs : List Vec3) (a b : Nat) : Prop := vertKey vs a ≤ vertKey vs b

instance (vs : List Vec3) : DecidableRel (vertKeyLe vs) :=
  fun a b => inferInstanceAs (Decidable (vertKey vs a ≤ vertKey vs b))

/- Follow the redirection chain until a fixed point, with fuel (the C loop
   terminates because redirections always point backwards in sorted order). -/
def chase (redirect : List Nat) : Nat → Nat → Nat
  | 0, j => j
  | fuel + 1, j =>
    let r := redirect.getD j j
    if r = j then j else chase redirect fuel r

def removeRepeated (m : StlRaw) : Except StlErr StlRaw :=
  let nvert := m.vert.length
  let idx := List.insertionSort (vertKeyLe m.vert) (List.range nvert)
  -- scan consecutive sorted vertices for exact equality, record redirections
  let redirect0 := List.range nvert
  let redirect1 :=
    (idx.zip idx.tail).foldl
      (fun (r : List Nat) p =>
        if m.vert.getD p.2 (0, 0, 0) = m.vert.getD p.1 (0, 0, 0) then r.set p.2 p.1 else r)
      redirect0
  let repeated := ((List.range nvert).filter (fun i => redirect1.getD i i ≠ i)).length
  if repeated = 0 then .ok m
  else
    -- resolve chains, compute compressed positions
    let resolved := (List.range nvert).map (fun i => chase redirect1 nvert i)
    let keep := (List.range nvert).filter (fun i => resolved.getD i i = i)
    let newIndex := (List.range nvert).map (fun i => (keep.indexOf i : Int))
    let remap := fun (f : Nat) => newIndex.getD (resolved.getD f f) (-1)
    let nvert2 := nvert - repeated
    let faces2 := m.face.map (fun f => (remap f.1, remap f.2.1, remap f.2.2))
    if faces2.all (fun f =>
        0 ≤ f.1 ∧ f.1 < (nvert2 : Int) ∧ 0 ≤ f.2.1 ∧ f.2.1 < (nvert2 : Int) ∧
        0 ≤ f.2.2 ∧ f.2.2 < (nvert2 : Int)) then
      .ok ⟨m.nface,
           faces2.map (fun f => (f.1.toNat, f.2.1.toNat, f.2.2.toNat)),
           keep.map (fun i => m.vert.getD i (0, 0, 0))⟩
    else .error .removeFailed

/- LoadSTL = raw parse, then RemoveRepeated (user_mesh.cc:805). -/
def loadSTL (bs : List Nat) (scale : Vec3) : Except StlErr StlRaw :=
  match loadSTLraw bs scale with
  | .error e => .error e
  | .ok raw => removeRepeated raw

/- ---------------- LoadMSH (user_mesh.cc:811) ---------------- -/

inductive MshErr where
  | empty          -- "MSH file is empty"
  | missingHeader  -- "missing header in MSH file"
  | badSizes       -- "invalid sizes in MSH file"
  | sizeMismatch   -- "unexpected file size in MSH file"
deriving DecidableEq, Repr

structure MshMesh where
  nvert : Int
  nnormal : Int
  ntexcoord : Int
  nface : Int
  vert : List ℚ
  normal : List ℚ
  texcoord : List ℚ
  face : List Int
  facenormal : List Int
  facetexcoord : List Int
deriving DecidableEq, Repr

def mshInts (bs : List Nat) (off cnt : Nat) : List Int :=
  (List.range cnt).map (fun k => i32At bs (off + 4 * k))

def mshFloats (bs : List Nat) (off cnt : Nat) : List ℚ :=
  (List.range cnt).map (fun k => f32ValAt bs (off + 4 * k))

/- Swap entries 1 and 2 of every consecutive index triple (the in-place
   rearrangement at user_mesh.cc:907). -/
def swap23Flat : List Int → List Int
  | a :: b :: c :: rest => a :: c :: b :: swap23Flat rest
  | rest => rest

/- The face data exactly as read from the buffer (source of the two memcpys
   into `face` and `facenormal`). -/
def mshReadFaces (bs : List Nat) : List Int :=
  let nv := i32At bs 0
  let nn := i32At bs 4
  let nt := i32At bs 8
  let nf := i32At bs 12
  if nf > 0 then
    mshInts bs (16 + 12 * nv.toNat + 12 * nn.toNat + 8 * nt.toNat) (3 * nf.toNat)
  else []

def loadMSH (bs : List Nat) (scale : Vec3) : Except MshErr MshMesh :=
  if bs.length = 0 then .error .empty
  else if bs.length < 16 then .error .missingHeader
  else
    let nv := i32At bs 0
    let nn := i32At bs 4
    let nt := i32At bs 8
    let nf := i32At bs 12
    if nv < 4 ∨ nf < 0 ∨ nn < 0 ∨ nt < 0 ∨ (nn > 0 ∧ nn ≠ nv) ∨ (nt > 0 ∧ nt ≠ nv) then
      .error .badSizes
    else if (bs.length : Int) ≠ 16 + 12 * nv + 12 * nn + 8 * nt + 12 * nf then
      .error .sizeMismatch
    else
      let vert := mshFloats bs 16 (3 * nv.toNat)
      let normal := if nn > 0 then mshFloats bs (16 + 12 * nv.toNat) (3 * nv.toNat) else []
      let texcoord :=
        if nt > 0 then mshFloats bs (16 + 12 * nv.toNat + 12 * nn.toNat) (2 * nv.toNat) else []
      let fr := mshReadFaces bs
      -- note: `facetexcoord` is copied from the same (un-advanced) data
      -- pointer as `face`, and only `face` is swapped for left-handed scale
      .ok { nvert := nv, nnormal := nn, ntexcoord := nt, nface := nf,
            vert := vert, normal := normal, texcoord := texcoord,
            face := if nf > 0 ∧ ¬righthand scale then swap23Flat fr else fr,
            facenormal := fr,
            facetexcoord := if nf > 0 ∧ texcoord ≠ [] then fr else [] }

/- ---------------- LoadOBJ face emission (user_mesh.cc:622) ---------------- -/

inductive ObjErr where
  | onlyTriQuad  -- "only tri or quad meshes are supported for OBJ"
deriving DecidableEq, Repr

/- Emission of one parsed face: index 0, then indices 1,2 (swapped when not
   right-handed); a quad additionally emits 0,2,3 (swapped to 0,3,2). -/
def objExpandFace (rh : Bool) (f : List Int) : List Int :=
  let g := fun k => f.getD k 0
  [g 0, g (if rh then 1 else 2), g (if rh then 2 else 1)] ++
    (if f.length = 4 then [g 0, g (if rh then 2 else 3), g (if rh then 3 else 2)] else [])

/- The face loop of LoadOBJ over the parsed faces (each given by its list of
   vertex indices, grouping tinyobj's flat `indices` by `num_face_vertices`). -/
def objFaceIndices (rh : Bool) : List (List Int) → Except ObjErr (List Int)
  | [] => .ok []
  | f :: rest =>
    if f.length < 3 ∨ f.length > 4 then .error .onlyTriQuad
    else
      match objFaceIndices rh rest with
      | .error e => .error e
      | .ok r => .ok (objExpandFace rh f ++ r)

/- Texcoord v-flip at the end of LoadOBJ (user_mesh.cc:681): every pair
   except index 0 gets v ← 1 - v. -/
def objFlipTexcoord : List (ℚ × ℚ) → List (ℚ × ℚ)
  | [] => []
  | t0 :: rest => t0 :: rest.map (fun t => (t.1, qsub 1 t.2))

/- ---------------- mjCSkin::Compile weight normalization (user_mesh.cc:1689) -------- -/

inductive SkinErr where
  | boneSize               -- "vertid and vertweight must have same non-zero size"
  | vertidRange (jj : Int) -- "vertid %d out of range in skin"
  | zeroWeight (i : Nat)   -- "vertex %d must have positive total weight"
deriving DecidableEq, Repr

/- A bone's influence list: parallel vertex ids and weights. -/
abbrev Bone : Type := List Int × List ℚ

/- Accumulate one bone's weights into the per-vertex totals, with the range
   check on each id (inner loop at user_mesh.cc:1704). -/
def skinAccumBone (nvert : Nat) (pairs : List (Int × ℚ)) (vw : List ℚ) :
    Except SkinErr (List ℚ) :=
  match pairs with
  | [] => .ok vw
  | (jj, w) :: rest =>
    if jj < 0 ∨ jj ≥ (nvert : Int) then .error (.vertidRange jj)
    else skinAccumBone nvert rest (vw.set jj.toNat (qadd (vw.getD jj.toNat 0) w))

/- The accumulation over all bones, with the per-bone size check
   (user_mesh.cc:1696). -/
def skinAccum (nvert : Nat) : List Bone → List ℚ → Except SkinErr (List ℚ)
  | [], vw => .ok vw
  | (ids, ws) :: rest, vw =>
    if ids.length ≠ ws.length ∨ ids.length = 0 then .error .boneSize
    else
      match skinAccumBone nvert (ids.zip ws) vw with
      | .error e => .error e
      | .ok vw1 => skinAccum nvert rest vw1

/- Coverage check (user_mesh.cc:1717): scan vertices 0..nvert-1 in order for
   the first total ≤ mjMINVAL. -/
def skinCoverageGo : List ℚ → Nat → Option SkinErr
  | [], _ => none
  | w :: rest, i => if w ≤ mjMINVAL then some (.zeroWeight i) else skinCoverageGo rest (i + 1)

def skinCoverageFrom (vw : List ℚ) : Option SkinErr := skinCoverageGo vw 0

/- Weight normalization of mjCSkin::Compile: accumulate totals, check
   coverage of every vertex, then divide each weight by its vertex total. -/
def skinNormalize (nvert : Nat) (bones : List Bone) : Except SkinErr (List Bone) :=
  match skinAccum nvert bones (List.replicate nvert 0) with
  | .error e => .error e
  | .ok vw =>
    match skinCoverageFrom vw with
    | some e => .error e
    | none =>
      .ok (bones.map (fun b =>
        (b.1, (b.1.zip b.2).map (fun p => qdiv p.2 (vw.getD p.1.toNat 0)))))

/- Spec-level total weight of vertex v: the sum of all weights attached to v
   over all bones. -/
def pairsOf (bones : List Bone) : List (Int × ℚ) := bones.flatMap (fun b => b.1.zip b.2)

def pairSum (pairs : List (Int × ℚ)) (v : Nat) : ℚ :=
  ((pairs.filter (fun p => p.1 = (v : Int))).map Prod.snd).sum

def totalWeight (bones : List Bone) (v : Nat) : ℚ := pairSum (pairsOf bones) v

/- ---------------- compiled-mesh state, CheckMesh, accessors ---------------- -/

inductive MeshErr where
  | inconsistentOrientation (a b : Int)  -- "faces ... have inconsistent orientation"
  | areaTooSmall                         -- "mesh surface area is too small"
  | volumeTooSmall                       -- "mesh volume is too small"
  | nonPositiveEigenvalue                -- "eigenvalue of mesh inertia must be positive"
  | eigenvalueInequality                 -- "eigenvalues of mesh inertia violate A + B >= C"
deriving DecidableEq, Repr

/- The state of an mjCMesh instance: staged scalars and arrays after Compile
   (or the constructor's zeroed state when never compiled). -/
structure MeshState where
  nvert : Nat
  nnormal : Nat
  ntexcoord : Nat
  nface : Nat
  vert : List Vec3
  normal : List Vec3
  texcoord : List (ℚ × ℚ)
  face : List (Int × Int × Int)
  facenormal : List Int
  facetexcoord : List Int
  graph : Option (List Int)
  szgraph : Nat
  pos_surface : Vec3
  pos_volume : Vec3
  quat_surface : Quat4
  quat_volume : Quat4
  boxsz_surface : Vec3
  boxsz_volume : Vec3
  aabbMin : Vec3
  aabbMax : Vec3
  surface : ℚ
  volume : ℚ
  invalidorientation : Int × Int
  validarea : Bool
  validvolume : Bool
  valideigenvalue : Bool
  validinequality : Bool
  processed : Bool
deriving DecidableEq, Repr

/- The constructor's defaults (user_mesh.cc:87). -/
def initMeshState : MeshState :=
  { nvert := 0, nnormal := 0, ntexcoord := 0, nface := 0,
    vert := [], normal := [], texcoord := [], face := [],
    facenormal := [], facetexcoord := [], graph := none, szgraph := 0,
    pos_surface := (0, 0, 0), pos_volume := (0, 0, 0),
    quat_surface := (1, 0, 0, 0), quat_volume := (1, 0, 0, 0),
    boxsz_surface := (0, 0, 0), boxsz_volume := (0, 0, 0),
    aabbMin := (((10 ^ 10 : Nat) : ℚ), ((10 ^ 10 : Nat) : ℚ), ((10 ^ 10 : Nat) : ℚ)),
    aabbMax := (qneg ((10 ^ 10 : Nat) : ℚ), qneg ((10 ^ 10 : Nat) : ℚ), qneg ((10 ^ 10 : Nat) : ℚ)),
    surface := 0, volume := 0,
    invalidorientation := (-1, -1),
    validarea := true, validvolume := true,
    valideigenvalue := true, validinequality := true,
    processed := false }

/- mjCMesh::CheckMesh (user_mesh.cc:1188): silent when not processed, else
   the first failing validity condition raises, in source order. -/
def checkMesh (m : MeshState) : Option MeshErr :=
  if ¬m.processed then none
  else if m.invalidorientation.1 ≥ 0 ∨ m.invalidorientation.2 ≥ 0 then
    some (.inconsistentOrientation m.invalidorientation.1 m.invalidorientation.2)
  else if ¬m.validarea then some .areaTooSmall
  else if ¬m.validvolume then some .volumeTooSmall
  else if ¬m.valideigenvalue then some .nonPositiveEigenvalue
  else if ¬m.validinequality then some .eigenvalueInequality
  else none

/- Spec-side reading of §7's fixed order: the first applicable error from
   the ordered list of conditions. -/
def checkSequence (m : MeshState) : List (Bool × MeshErr) :=
  [(decide (m.invalidorientation.1 ≥ 0 ∨ m.invalidorientation.2 ≥ 0),
    .inconsistentOrientation m.invalidorientation.1 m.invalidorientation.2),
   (!m.validarea, .areaTooSmall),
   (!m.validvolume, .volumeTooSmall),
   (!m.valideigenvalue, .nonPositiveEigenvalue),
   (!m.validinequality, .eigenvalueInequality)]

def firstApplicable (m : MeshState) : Option MeshErr :=
  ((checkSequence m).find? (fun c => c.1)).map (fun c => c.2)

abbrev MeshType : Type := Bool  -- true = mjSHELL_MESH, false = mjVOLUME_MESH

def mjSHELL_MESH : MeshType := true
def mjVOLUME_MESH : MeshType := false

/- mjCMesh::GetInertiaBoxPtr (user_mesh.cc:1209): calls CheckMesh, then
   yields the shell or volume inertia box. -/
def getInertiaBoxPtr (type : MeshType) (m : MeshState) : Except MeshErr Vec3 :=
  match checkMesh m with
  | some e => .error e
  | none => .ok (if type = mjSHELL_MESH then m.boxsz_surface else m.boxsz_volume)

/- mjCMesh::GetVolumeRef (user_mesh.cc:1215): calls CheckMesh, then yields
   the shell surface or the volume. -/
def getVolumeRefVal (type : MeshType) (m : MeshState) : Except MeshErr ℚ :=
  match checkMesh m with
  | some e => .error e
  | none => .ok (if type = mjSHELL_MESH then m.surface else m.volume)

/- ---------------- mjCMesh::MakeGraph (user_mesh.cc:1222) ---------------- -/

/- Abstract output of the external qhull engine after qh_triangulate and
   qh_vertexneighbors: each hull vertex carries its point id and the vertex
   id lists of its incident facets; the global facet list carries each
   facet's vertex ids and its `toporient` flag. -/
structure HullVertex where
  pid : Int
  facets : List (List Int)
deriving DecidableEq, Repr

structure Hull where
  vertices : List HullVertex
  faces : List (List Int × Bool)
deriving DecidableEq, Repr

/- Outcome of MakeGraph. `fatal` models mju_error (a hard abort, not a
   catchable mjCError); `discarded` models the warning-only path that frees
   the graph and zeroes szgraph; `hullError` models the longjmp handler that
   rethrows as mjCError "qhull error". -/
inductive MGOut where
  | skipped
  | hullError
  | fatal (msg : String)
  | discarded
  | ok (graph : List Int)
deriving DecidableEq, Repr

/- Inner loop over one facet's vertices (user_mesh.cc:1298): count them,
   break (clearing ok) on an out-of-range id, and insert unseen neighbour
   ids into this hull vertex's segment of edge_localid. -/
structure FacetScan where
  cnt : Nat
  seg : List Int
  ok : Bool
deriving DecidableEq, Repr

def scanFacet (nvert pid : Int) : List Int → List Int → Nat → FacetScan
  | [], seg, cnt => ⟨cnt, seg, true⟩
  | p :: rest, seg, cnt =>
    -- cnt++ precedes the range check in the source
    if p < 0 ∨ p ≥ nvert then ⟨cnt + 1, seg, false⟩
    else if p ≠ pid ∧ ¬p ∈ seg then scanFacet nvert pid rest (seg ++ [p]) (cnt + 1)
    else scanFacet nvert pid rest seg (cnt + 1)

/- Loop over one hull vertex's incident facets: after each facet,
   `cnt != 3` is a fatal mju_error (user_mesh.cc:1325). -/
def scanVertexFacets (nvert pid : Int) : List (List Int) → List Int → Bool →
    Except String (List Int × Bool)
  | [], seg, ok => .ok (seg, ok)
  | f :: rest, seg, ok =>
    let s := scanFacet nvert pid f seg 0
    if s.cnt ≠ 3 then .error "Qhull did not return triangle"
    else scanVertexFacets nvert pid rest s.seg (ok && s.ok)

/- Outer loop over hull vertices (user_mesh.cc:1282): an out-of-range point
   id clears ok and breaks; otherwise record edge address and global id,
   scan the facets, and append the -1 separator. -/
def scanVertices (nvert : Int) : List HullVertex → List Int → List Int → List Int → Bool →
    Except String (List Int × List Int × List Int × Bool)
  | [], el, ea, gi, ok => .ok (ea, gi, el, ok)
  | v :: rest, el, ea, gi, ok =>
    if v.pid < 0 ∨ v.pid ≥ nvert then .ok (ea, gi, el, false)
    else
      match scanVertexFacets nvert v.pid v.facets [] true with
      | .error m => .error m
      | .ok (seg, ok2) =>
        scanVertices nvert rest (el ++ seg ++ [-1])
          (ea ++ [(el.length : Int)]) (gi ++ [v.pid]) (ok && ok2)

def writeSlotInt (t : Int × Int × Int) (pos : Nat) (v : Int) : Int × Int × Int :=
  match pos with
  | 0 => (v, t.2.1, t.2.2)
  | 1 => (t.1, v, t.2.2)
  | _ => (t.1, t.2.1, v)

/- Triangle copy with reorientation (user_mesh.cc:1342): slot ind[ii] gets
   the ii-th vertex id, with ind = [1,0,2] when toporient, else [0,1,2];
   more than three vertices is a fatal error; unwritten slots of the
   malloc'ed array are modeled as 0. -/
def fillFace (f : List Int × Bool) : Except String (List Int) :=
  if 3 < f.1.length then .error "Qhull did not return triangle"
  else
    let ind : List Nat := if f.2 then [1, 0, 2] else [0, 1, 2]
    let t := (f.1.zip ind).foldl (fun t p => writeSlotInt t p.2 p.1) (0, 0, 0)
    .ok [t.1, t.2.1, t.2.2]

def fillFaces : List (List Int × Bool) → Except String (List Int)
  | [] => .ok []
  | f :: rest =>
    match fillFace f with
    | .error e => .error e
    | .ok t =>
      match fillFaces rest with
      | .error e => .error e
      | .ok r => .ok (t ++ r)

/- Rewrite of edge_localid from global ids to hull-local ids by linear
   search in vert_globalid (user_mesh.cc:1378). -/
def replaceIds (gi : List Int) : List Int → Except String (List Int)
  | [] => .ok []
  | e :: rest =>
    if e ≥ 0 then
      match gi.findIdx? (fun x => x = e) with
      | some adr =>
        match replaceIds gi rest with
        | .error m => .error m
        | .ok r => .ok ((adr : Int) :: r)
      | none => .error "Vertex id not found in convex hull"
    else
      match replaceIds gi rest with
      | .error m => .error m
      | .ok r => .ok (e :: r)

/- The graph-filling stage of MakeGraph, given the engine's hull.  Source
   order: vertex scan, size check, face fill, frees, discard-with-warning
   when ok was cleared, then the id-replacement loop (whose failure is a
   fatal mju_error even on the discard path). -/
def makeGraphFill (nvert : Int) (h : Hull) : MGOut :=
  let numvert := h.vertices.length
  let numface := h.faces.length
  match scanVertices nvert h.vertices [] [] [] true with
  | .error m => .fatal m
  | .ok (ea, gi, el, ok) =>
    if el.length ≠ numvert + 3 * numface then .fatal "Wrong size in convex hull graph"
    else
      match fillFaces h.faces with
      | .error m => .fatal m
      | .ok fg =>
        match replaceIds gi el with
        | .error m => .fatal m
        | .ok el2 =>
          if ok then
            .ok ([(numvert : Int), (numface : Int)] ++ ea ++ gi ++ el2 ++ fg)
          else .discarded

/- mjCMesh::MakeGraph: immediate return for fewer than four vertices, then
   the external hull engine behind the setjmp bridge, then the fill. -/
def makeGraph (engine : List Vec3 → Except Unit Hull) (nvert : Int) (vert : List Vec3) :
    MGOut :=
  if nvert < 4 then .skipped
  else
    match engine vert with
    | .error _ => .hullError
    | .ok h => makeGraphFill nvert h

/- mjCMesh::CopyGraph (user_mesh.cc:1415): triangles synthesized from the
   hull's face_globalid block. -/
def copyGraph (g : List Int) : List (Int × Int × Int) :=
  let numvert := (g.getD 0 0).toNat
  let nface := (g.getD 1 0).toNat
  (List.range nface).map (fun i =>
    let j := 2 + 3 * numvert + 3 * nface + 3 * i
    (g.getD j 0, g.getD (j + 1) 0, g.getD (j + 2) 0))

/- ---------------- mjCMesh::Process (user_mesh.cc:924) ---------------- -/

/- Compile-time failures: `err` is a catchable mjCError, `fatal` is a
   mju_error hard abort. -/
inductive CompErr where
  | err (msg : String)
  | fatal (msg : String)
deriving DecidableEq, Repr

abbrev Mat3 : Type := Vec3 × Vec3 × Vec3

def qw (q : Quat4) : ℚ := q.1
def qxx (q : Quat4) : ℚ := q.2.1
def qyy (q : Quat4) : ℚ := q.2.2.1
def qzz (q : Quat4) : ℚ := q.2.2.2

/- mju_quat2Mat / mjuu_quat2mat (external utils, standard formula). -/
def quat2mat (q : Quat4) : Mat3 :=
  let w := qw q
  let x := qxx q
  let y := qyy q
  let z := qzz q
  let k := fun (a b : ℚ) => qmul 2 (qmul a b)
  ((qsub (qsub (qadd (qmul w w) (qmul x x)) (qmul y y)) (qmul z z),
    qsub (k x y) (k w z), qadd (k x z) (k w y)),
   (qadd (k x y) (k w z),
    qsub (qadd (qsub (qmul w w) (qmul x x)) (qmul y y)) (qmul z z),
    qsub (k y z) (k w x)),
   (qsub (k x z) (k w y), qadd (k y z) (k w x),
    qadd (qsub (qsub (qmul w w) (qmul x x)) (qmul y y)) (qmul z z)))

/- mjuu_mulvecmat: res = mat * vec. -/
def matVec (M : Mat3) (v : Vec3) : Vec3 := (v3dot M.1 v, v3dot M.2.1 v, v3dot M.2.2 v)

/- mju_rotVecMatT: res = matᵀ * vec. -/
def matTVec (M : Mat3) (v : Vec3) : Vec3 :=
  matVec ((M.1.1, M.2.1.1, M.2.2.1), (M.1.2.1, M.2.1.2.1, M.2.2.2.1),
          (M.1.2.2, M.2.1.2.2, M.2.2.2.2)) v

/- mju_normalize4 (external util): unit-normalize, identity on degenerate. -/
def normalize4 (q : Quat4) : Quat4 :=
  let n2 := qadd (qadd (qmul (qw q) (qw q)) (qmul (qxx q) (qxx q)))
    (qadd (qmul (qyy q) (qyy q)) (qmul (qzz q) (qzz q)))
  let n := ratSqrt n2
  if n < mjMINVAL then (1, 0, 0, 0)
  else (qdiv (qw q) n, qdiv (qxx q) n, qdiv (qyy q) n, qdiv (qzz q) n)

def vertAt (vs : List Vec3) (i : Int) : Vec3 := vs.getD i.toNat (0, 0, 0)

/- The VOLUME-only pre-pass (user_mesh.cc:934-1006): translate by -refpos,
   rotate by refquat⁻¹, scale, then renormalize normals (with squared norm
   compared against mjMINVAL, as in the source) falling back to +Z. -/
def prePass (refpos : Vec3) (refquat : Quat4) (scale : Vec3) (st : MeshState) : MeshState :=
  let st :=
    if refpos ≠ ((0 : ℚ), (0 : ℚ), (0 : ℚ)) then
      { st with vert := st.vert.map (fun v => v3sub v refpos) }
    else st
  let st :=
    if refquat ≠ ((1 : ℚ), (0 : ℚ), (0 : ℚ), (0 : ℚ)) then
      let M := quat2mat (normalize4 refquat)
      { st with vert := st.vert.map (matTVec M), normal := st.normal.map (matTVec M) }
    else st
  let st :=
    if scale ≠ ((1 : ℚ), (1 : ℚ), (1 : ℚ)) then
      { st with
        vert := st.vert.map (fun v => (qmul scale.1 v.1, qmul scale.2.1 v.2.1, qmul scale.2.2 v.2.2)),
        normal := st.normal.map (fun v => (qmul scale.1 v.1, qmul scale.2.1 v.2.1, qmul scale.2.2 v.2.2)) }
    else st
  { st with normal := st.normal.map (fun n =>
      let len := v3dot n n
      if len > mjMINVAL then v3smul (qinv (ratSqrt len)) n else (0, 0, 1)) }

/- Face centroid accumulation with the vertex-index range check
   (user_mesh.cc:1009-1025). -/
def facecenArea (st : MeshState) : Except CompErr (Vec3 × ℚ) :=
  st.face.foldlM (fun (acc : Vec3 × ℚ) f =>
    if f.1 < 0 ∨ f.1 ≥ (st.nvert : Int) ∨ f.2.1 < 0 ∨ f.2.1 ≥ (st.nvert : Int) ∨
        f.2.2 < 0 ∨ f.2.2 ≥ (st.nvert : Int) then
      .error (.err "vertex index out of range")
    else
      let t := triangle (vertAt st.vert f.1) (vertAt st.vert f.2.1) (vertAt st.vert f.2.2)
      .ok (v3add acc.1 (v3smul t.1 t.2.2), qadd acc.2 t.1))
    ((0, 0, 0), 0)

/- First-moment sweep (user_mesh.cc:1040-1059): accumulate pyramid volumes
   and the CoM numerator. -/
def comVolPass (exact shell : Bool) (facecen : Vec3) (st : MeshState) : ℚ × Vec3 :=
  st.face.foldl (fun (acc : ℚ × Vec3) f =>
    let t := triangle (vertAt st.vert f.1) (vertAt st.vert f.2.1) (vertAt st.vert f.2.2)
    let a := t.1
    let nrm := t.2.1
    let cen := t.2.2
    let vec := v3sub cen facecen
    let vol0 := if shell then a else qdiv (qmul (v3dot vec nrm) a) 3
    let vol := if exact then vol0 else qabs vol0
    (qadd acc.1 vol,
     v3add acc.2 (v3smul vol (v3add (v3smul (mkRat 3 4) cen) (v3smul (mkRat 1 4) facecen)))))
    (0, (0, 0, 0))

/- Second-moment sweep (user_mesh.cc:1082-1112): products of inertia with
   prefactor density/12 (SHELL) or density/20 (VOLUME). -/
def inertiaPass (exact shell : Bool) (density : ℚ) (st : MeshState) :
    ℚ × (ℚ × ℚ × ℚ × ℚ × ℚ × ℚ) :=
  st.face.foldl (fun (acc : ℚ × (ℚ × ℚ × ℚ × ℚ × ℚ × ℚ)) f =>
    let D := vertAt st.vert f.1
    let E := vertAt st.vert f.2.1
    let F := vertAt st.vert f.2.2
    let t := triangle D E F
    let a := t.1
    let nrm := t.2.1
    let cen := t.2.2
    let vol0 := if shell then a else qdiv (qmul (v3dot cen nrm) a) 3
    let vol := if exact then vol0 else qabs vol0
    let coef := qdiv (qmul density vol) (if shell then 12 else 20)
    let term := fun (i j : Nat) =>
      qadd (qmul 2 (qadd (qadd (qmul (v3comp D i) (v3comp D j)) (qmul (v3comp E i) (v3comp E j)))
          (qmul (v3comp F i) (v3comp F j))))
        (qadd (qadd (qadd (qmul (v3comp D i) (v3comp E j)) (qmul (v3comp D j) (v3comp E i)))
            (qadd (qmul (v3comp D i) (v3comp F j)) (qmul (v3comp D j) (v3comp F i))))
          (qadd (qmul (v3comp E i) (v3comp F j)) (qmul (v3comp E j) (v3comp F i))))
    let P := acc.2
    (qadd acc.1 vol,
     (qadd P.1 (qmul coef (term 0 0)), qadd P.2.1 (qmul coef (term 1 1)),
      qadd P.2.2.1 (qmul coef (term 2 2)), qadd P.2.2.2.1 (qmul coef (term 0 1)),
      qadd P.2.2.2.2.1 (qmul coef (term 0 2)), qadd P.2.2.2.2.2 (qmul coef (term 1 2))))
    ) (0, (0, 0, 0, 0, 0, 0))

/- The shared tail of one Process iteration, from the first-moment sweep to
   the principal-frame rotation; the Bool result is false when the source
   `return`s early out of the whole Process. -/
def processCore (eig3 : Mat3 → Vec3 × Quat4) (exact : Bool) (density : ℚ)
    (shell : Bool) (facecen : Vec3) (st : MeshState) : MeshState × Bool :=
  let cv := comVolPass exact shell facecen st
  let vol := cv.1
  let st := if shell then { st with surface := vol } else { st with volume := vol }
  if vol < mjMINVAL then ({ st with validvolume := false }, false)
  else
    let com := v3smul (qinv vol) cv.2
    let st := if shell then { st with pos_surface := com } else { st with pos_volume := com }
    let st := if shell then st else { st with vert := st.vert.map (fun v => v3sub v com) }
    let ip := inertiaPass exact shell density st
    let vol2 := ip.1
    let P := ip.2
    let st := if shell then { st with surface := vol2 } else { st with volume := vol2 }
    let i0 := qadd P.2.1 P.2.2.1
    let i1 := qadd P.1 P.2.2.1
    let i2 := qadd P.1 P.2.1
    let i3 := qneg P.2.2.2.1
    let i4 := qneg P.2.2.2.2.1
    let i5 := qneg P.2.2.2.2.2
    let full : Mat3 := ((i0, i3, i4), (i3, i1, i5), (i4, i5, i2))
    let ev := eig3 full
    let lam := ev.1
    let quattmp := ev.2
    if lam.2.2 ≤ 0 then ({ st with valideigenvalue := false }, false)
    else if qadd lam.1 lam.2.1 < lam.2.2 ∨ qadd lam.1 lam.2.2 < lam.2.1 ∨
        qadd lam.2.1 lam.2.2 < lam.1 then
      ({ st with validinequality := false }, false)
    else
      let mass := qmul vol2 density
      let boxsz : Vec3 :=
        (qdiv (ratSqrt (qdiv (qmul 6 (qsub (qadd lam.2.1 lam.2.2) lam.1)) mass)) 2,
         qdiv (ratSqrt (qdiv (qmul 6 (qsub (qadd lam.1 lam.2.2) lam.2.1)) mass)) 2,
         qdiv (ratSqrt (qdiv (qmul 6 (qsub (qadd lam.1 lam.2.1) lam.2.2)) mass)) 2)
      let st := if shell then { st with boxsz_surface := boxsz } else { st with boxsz_volume := boxsz }
      let st :=
        if shell then { st with quat_surface := st.quat_volume }
        else { st with quat_volume := quattmp }
      if shell then (st, true)
      else
        let neg : Quat4 := (qw quattmp, qneg (qxx quattmp), qneg (qyy quattmp), qneg (qzz quattmp))
        let M := quat2mat neg
        let verts2 := st.vert.map (matVec M)
        let aabb := verts2.foldl
          (fun (ab : Vec3 × Vec3) v =>
            ((qmin ab.1.1 v.1, qmin ab.1.2.1 v.2.1, qmin ab.1.2.2 v.2.2),
             (qmax ab.2.1 v.1, qmax ab.2.2.1 v.2.1, qmax ab.2.2.2 v.2.2)))
          (st.aabbMin, st.aabbMax)
        ({ st with vert := verts2, normal := st.normal.map (matVec M),
                   aabbMin := aabb.1, aabbMax := aabb.2 }, true)

/- One iteration of the Process type loop. -/
def processType (eig3 : Mat3 → Vec3 × Quat4) (exact : Bool) (density : ℚ)
    (refpos : Vec3) (refquat : Quat4) (scale : Vec3) (shell : Bool) (st : MeshState) :
    Except CompErr (MeshState × Bool) :=
  if shell then .ok (processCore eig3 exact density true (0, 0, 0) st)
  else do
    let st := prePass refpos refquat scale st
    let fa ← facecenArea st
    if fa.2 < mjMINVAL then .ok ({ st with validarea := false }, false)
    else .ok (processCore eig3 exact density false (v3smul (qinv fa.2) fa.1) st)

/- mjCMesh::Process: VOLUME first, then SHELL unless an early return fired. -/
def process (eig3 : Mat3 → Vec3 × Quat4) (exact : Bool) (density : ℚ)
    (refpos : Vec3) (refquat : Quat4) (scale : Vec3) (st : MeshState) :
    Except CompErr MeshState := do
  let r1 ← processType eig3 exact density refpos refquat scale false st
  if r1.2 then do
    let r2 ← processType eig3 exact density refpos refquat scale true r1.1
    .ok r2.1
  else .ok r1.1

/- ---------------- mjCMesh::MakeNormal (user_mesh.cc:1441) ---------------- -/

/- mju_normalize3 (external util): returns the norm; degenerate vectors
   become (1,0,0). -/
def normalize3 (v : Vec3) : Vec3 × ℚ :=
  let n := ratSqrt (v3dot v v)
  if n < mjMINVAL then ((1, 0, 0), n) else (v3smul (qinv n) v, n)

def updVec (l : List Vec3) (i : Nat) (d : Vec3) : List Vec3 :=
  l.set i (v3add (l.getD i (0, 0, 0)) d)

/- Area-weighted face normal of face f (cross of the two edges and its
   norm, as in the MakeNormal loops). -/
def faceNormalArea (vs : List Vec3) (f : Int × Int × Int) : Vec3 × ℚ :=
  let v0 := vertAt vs f.1
  let v1 := vertAt vs f.2.1
  let v2 := vertAt vs f.2.2
  normalize3 (v3cross (v3sub v1 v0) (v3sub v2 v0))

def makeNormal (smoothnormal : Bool) (st : MeshState) : MeshState :=
  if st.normal ≠ [] then st
  else
    let nnormal := st.nvert
    let normal0 : List Vec3 := List.replicate nnormal (0, 0, 0)
    -- accumulate area-weighted face normals into the vertex normals
    let normal1 := st.face.foldl (fun acc f =>
      let na := faceNormalArea st.vert f
      let d := v3smul na.2 na.1
      updVec (updVec (updVec acc f.1.toNat d) f.2.1.toNat d) f.2.2.toNat d) normal0
    -- when smoothing is off, remove contributions at large angles (cos < 0.8)
    let normal2 :=
      if ¬smoothnormal then
        let nremove := st.face.foldl (fun acc f =>
          let na := faceNormalArea st.vert f
          let sub := fun (acc : List Vec3) (vid : Int) =>
            let vn := (normalize3 (normal1.getD vid.toNat (0, 0, 0))).1
            if v3dot na.1 vn < mkRat 8 10 then updVec acc vid.toNat (v3smul na.2 na.1) else acc
          sub (sub (sub acc f.1) f.2.1) f.2.2) (List.replicate nnormal ((0 : ℚ), (0 : ℚ), (0 : ℚ)))
        (normal1.zip nremove).map (fun p => v3sub p.1 p.2)
      else normal1
    -- final normalization with +Z fallback
    let normal3 := normal2.map (fun n =>
      let len := ratSqrt (v3dot n n)
      if len > mjMINVAL then v3smul (qinv len) n else (0, 0, 1))
    { st with nnormal := nnormal, normal := normal3,
              facenormal := st.face.flatMap (fun f => [f.1, f.2.1, f.2.2]) }

/- ---------------- orientation check (user_mesh.cc:299) ---------------- -/

/- Lexicographic order of directed edges (std::pair<int,int> operator<). -/
def edgeLe (a b : Int × Int) : Prop := a.1 < b.1 ∨ (a.1 = b.1 ∧ a.2 ≤ b.2)

instance : DecidableRel edgeLe :=
  fun a b => inferInstanceAs (Decidable (a.1 < b.1 ∨ (a.1 = b.1 ∧ a.2 ≤ b.2)))

instance : IsTotal (Int × Int) edgeLe :=
  ⟨fun a b => by
    rcases lt_trichotomy a.1 b.1 with h | h | h
    · exact Or.inl (Or.inl h)
    · rcases le_total a.2 b.2 with h2 | h2
      · exact Or.inl (Or.inr ⟨h, h2⟩)
      · exact Or.inr (Or.inr ⟨h.symm, h2⟩)
    · exact Or.inr (Or.inl h)⟩

instance : IsTrans (Int × Int) edgeLe :=
  ⟨fun a b c hab hbc => by
    rcases hab with h | ⟨h1, h2⟩
    · rcases hbc with h' | ⟨h1', _⟩
      · exact Or.inl (h.trans h')
      · exact Or.inl (h1' ▸ h)
    · rcases hbc with h' | ⟨h1', h2'⟩
      · exact Or.inl (h1 ▸ h')
      · exact Or.inr ⟨h1.trans h1', h2.trans h2'⟩⟩

/- std::adjacent_find: the first element equal to its successor. -/
def adjacentDup : List (Int × Int) → Option (Int × Int)
  | a :: b :: rest => if a = b then some a else adjacentDup (b :: rest)
  | _ => none

/- The orientation scan: sort the directed edges lexicographically and
   report the first adjacent duplicate as a 1-based pair. -/
def orientationPair (edges : List (Int × Int)) : Option (Int × Int) :=
  (adjacentDup (List.insertionSort edgeLe edges)).map (fun p => (p.1 + 1, p.2 + 1))

/- ---------------- mjCMesh::Compile orchestrator (user_mesh.cc:183) ------- -/

/- The user-staged mesh description (XML path: no file, data staged in the
   user arrays), together with the per-mesh options. -/
structure UserMesh where
  uservert : List ℚ
  usernormal : List ℚ
  usertexcoord : List ℚ
  userface : List Int
  userfacenormal : List Int
  userfacetexcoord : List Int
  useredge : List (Int × Int)
  refpos : Vec3
  refquat : Quat4
  scale : Vec3
  smoothnormal : Bool
  needhull : Bool

/- The model-level options Compile consults. -/
structure ModelCfg where
  convexhull : Bool
  exactmeshinertia : Bool
  density : ℚ

def chunk3 : List ℚ → List Vec3
  | a :: b :: c :: rest => (a, b, c) :: chunk3 rest
  | _ => []

def chunk2 : List ℚ → List (ℚ × ℚ)
  | a :: b :: rest => (a, b) :: chunk2 rest
  | _ => []

def chunk3i : List Int → List (Int × Int × Int)
  | a :: b :: c :: rest => (a, b, c) :: chunk3i rest
  | _ => []

/- Edge synthesis for XML-staged faces (user_mesh.cc:282-296): three
   directed edges per triangle whose area exceeds sqrt(mjMINVAL). -/
def synthEdges (vs : List Vec3) (faces : List (Int × Int × Int)) : List (Int × Int) :=
  faces.flatMap (fun f =>
    if triangleArea (vertAt vs f.1) (vertAt vs f.2.1) (vertAt vs f.2.2) > ratSqrt mjMINVAL then
      [(f.1, f.2.1), (f.2.1, f.2.2), (f.2.2, f.1)]
    else [])

/- mjCMesh::Compile on the no-file path: fold the user arrays into the mesh
   state with the size checks, run the orientation scan, optionally build
   the convex-hull graph (`engine` abstracts qhull, `eig3` abstracts
   mju_eig3), synthesize what is missing, run Process, mark processed. -/
def compile (cfg : ModelCfg) (engine : List Vec3 → Except Unit Hull)
    (eig3 : Mat3 → Vec3 × Quat4) (um : UserMesh) : Except CompErr MeshState := do
  let st := initMeshState
  -- copy user vertex
  let st ←
    if um.uservert ≠ [] then
      if um.uservert.length < 12 then .error (.err "at least 4 verices required")
      else if um.uservert.length % 3 ≠ 0 then .error (.err "vertex data must be a multiple of 3")
      else .ok { st with nvert := um.uservert.length / 3, vert := chunk3 um.uservert }
    else .ok st
  -- copy user normal
  let st ←
    if um.usernormal ≠ [] then
      if um.usernormal.length % 3 ≠ 0 then .error (.err "normal data must be a multiple of 3")
      else .ok { st with nnormal := um.usernormal.length / 3, normal := chunk3 um.usernormal }
    else .ok st
  -- copy user texcoord: only evenness is checked, not the pair count
  let st ←
    if um.usertexcoord ≠ [] then
      if um.usertexcoord.length % 2 ≠ 0 then .error (.err "texcoord must be a multiple of 2")
      else .ok { st with ntexcoord := um.usertexcoord.length / 2, texcoord := chunk2 um.usertexcoord }
    else .ok st
  -- copy user face, check ranges, synthesize the half-edge structure
  let r ←
    if um.userface ≠ [] then
      if um.userface.length % 3 ≠ 0 then .error (.err "face data must be a multiple of 3")
      else
        let faces := chunk3i um.userface
        if um.userface.any (fun v => v ≥ (st.nvert : Int) ∨ v < 0) then
          .error (.err "found index in userface that exceeds uservert size.")
        else
          let st := { st with nface := um.userface.length / 3, face := faces }
          if um.useredge = [] then .ok (st, synthEdges st.vert faces)
          else .ok (st, um.useredge)
    else .ok (st, um.useredge)
  let st := r.1
  let edges := r.2
  -- check for inconsistent face orientations
  let st :=
    if edges ≠ [] then
      match orientationPair edges with
      | some p => { st with invalidorientation := p }
      | none => st
    else st
  -- require vertices
  if st.vert = [] then .error (.err "no vertices")
  else do
  -- make graph describing convex hull
  let st ←
    if (cfg.convexhull ∧ um.needhull) ∨ st.face = [] then
      match makeGraph engine (st.nvert : Int) st.vert with
      | .skipped => .ok st
      | .hullError => .error (.err "qhull error")
      | .fatal m => .error (.fatal m)
      | .discarded => .ok st   -- warning only: graph stays null, szgraph 0
      | .ok g => .ok { st with graph := some g, szgraph := g.length }
    else .ok st
  -- no faces: copy from convex hull (a null graph dereference is fatal)
  let st ←
    if st.face = [] then
      match st.graph with
      | none => .error (.fatal "null graph dereference in CopyGraph")
      | some g => .ok { st with face := copyGraph g, nface := (g.getD 1 0).toNat }
    else .ok st
  -- no normals: make
  let st := if st.normal = [] then makeNormal um.smoothnormal st else st
  -- copy user normal indices
  let st ←
    if um.userfacenormal ≠ [] then
      if st.facenormal ≠ [] then .error (.err "repeated facenormal specification")
      else if um.userfacenormal.length ≠ 3 * st.nface then
        .error (.err "face data must have the same size as face normal data")
      else .ok { st with facenormal := um.userfacenormal }
    else .ok st
  -- copy user face texcoord indices
  let st ←
    if um.userfacetexcoord ≠ [] then
      if st.facetexcoord ≠ [] then .error (.err "repeated facetexcoord specification")
      else .ok { st with facetexcoord := um.userfacetexcoord }
    else .ok st
  -- facenormal defaults to a copy of face
  let st :=
    if st.facenormal = [] then
      { st with facenormal := st.face.flatMap (fun f => [f.1, f.2.1, f.2.2]) }
    else st
  -- scale, center, orient, compute mass and inertia
  let st ← process eig3 cfg.exactmeshinertia cfg.density um.refpos um.refquat um.scale st
  .ok { st with processed := true }

/- ---------------- concrete fixtures for the end-to-end scenarios ---------- -/

/- A hull engine that is never reached in the scenarios that use it. -/
def noEngine : List Vec3 → Except Unit Hull := fun _ => .error ()

/- A stand-in for mju_eig3 (external); the scenarios below return from
   Process before or at the eigenvalue check. -/
def noEig : Mat3 → Vec3 × Quat4 := fun _ => ((0, 0, 0), (1, 0, 0, 0))

def cfg0 : ModelCfg := { convexhull := false, exactmeshinertia := true, density := 1000 }

def cfgHull : ModelCfg := { convexhull := true, exactmeshinertia := true, density := 1000 }

/- S5-style mesh: four staged vertices, a single triangle face, explicit
   normals (so MakeNormal is skipped). -/
def oneTriMesh : UserMesh :=
  { uservert := [0, 0, 0, 1, 0, 0, 0, 1, 0, 7, 7, 7],
    usernormal := [0, 0, 1, 0, 0, 1, 0, 0, 1, 0, 0, 1],
    usertexcoord := [],
    userface := [0, 1, 2],
    userfacenormal := [], userfacetexcoord := [], useredge := [],
    refpos := (0, 0, 0), refquat := (1, 0, 0, 0), scale := (1, 1, 1),
    smoothnormal := false, needhull := false }

def oneTriCompiled : MeshState :=
  (compile cfg0 noEngine noEig oneTriMesh).toOption.getD initMeshState

/- S6-style mesh: two faces sharing the directed edge (0,1) in the same
   winding. -/
def dupEdgeMesh : UserMesh :=
  { oneTriMesh with userface := [0, 1, 2, 0, 1, 3] }

def dupEdgeCompiled : MeshState :=
  (compile cfg0 noEngine noEig dupEdgeMesh).toOption.getD initMeshState

/- A mesh staging one texcoord pair next to four vertices: Compile checks
   only evenness of the texcoord array. -/
def texMismatchMesh : UserMesh :=
  { oneTriMesh with usertexcoord := [3, 4] }

def texMismatchCompiled : MeshState :=
  (compile cfg0 noEngine noEig texMismatchMesh).toOption.getD initMeshState

/- The one-triangle mesh with a requested convex hull. -/
def hullTriMesh : UserMesh := { oneTriMesh with needhull := true }

/- A hull whose first facet has only two vertices (both ids in range). -/
def badFacetHull : Hull :=
  { vertices := [⟨0, [[1, 2]]⟩, ⟨1, []⟩, ⟨2, []⟩, ⟨3, []⟩], faces := [] }

def engineBadFacet : List Vec3 → Except Unit Hull := fun _ => .ok badFacetHull

/- A hull whose first vertex carries an out-of-range point id. -/
def badPidHull : Hull :=
  { vertices := [⟨7, []⟩, ⟨1, []⟩, ⟨2, []⟩, ⟨3, []⟩], faces := [] }

def engineBadPid : List Vec3 → Except Unit Hull := fun _ => .ok badPidHull

/- A tetrahedron-shaped hull in which a single out-of-range id (7) sits at
   the third vertex of a facet, so every facet still counts three vertices
   and only `ok` is cleared. -/
def discardHull : Hull :=
  { vertices :=
      [⟨0, [[0, 1, 2], [0, 1, 3], [0, 2, 7]]⟩,
       ⟨1, [[0, 1, 2], [0, 1, 3], [1, 2, 3]]⟩,
       ⟨2, [[0, 1, 2], [0, 2, 3], [1, 2, 3]]⟩,
       ⟨3, [[0, 1, 3], [0, 2, 3], [1, 2, 3]]⟩],
    faces := [([0, 1, 2], false), ([0, 1, 3], false), ([0, 2, 3], false), ([1, 2, 3], false)] }

def engineDiscard : List Vec3 → Except Unit Hull := fun _ => .ok discardHull

def hullDiscardCompiled : MeshState :=
  (compile cfgHull engineDiscard noEig hullTriMesh).toOption.getD initMeshState

/- Little-endian byte encoding of a 32-bit value. -/
def le4 (n : Nat) : List Nat :=
  [n % 256, n / 256 % 256, n / 65536 % 256, n / 16777216 % 256]

/- A 76-byte MSH file: header (4, 0, 0, 1), four zero vertices, one face
   (0, 1, 2). -/
def mshBuf76 : List Nat :=
  le4 4 ++ le4 0 ++ le4 0 ++ le4 1 ++ List.replicate 48 0 ++ le4 0 ++ le4 1 ++ le4 2

/- A zero-product scale: not negative, yet not right-handed. -/
def scaleZ : Vec3 := (0, 1, 1)

/- A 134-byte binary STL: 80-byte zero header, one triangle
   (0,0,0), (1,0,0), (0,1,0); 0x3F800000 encodes 1.0f. -/
def stlBuf134 : List Nat :=
  List.replicate 80 0 ++ le4 1 ++
    (List.replicate 12 0 ++
     (le4 0 ++ le4 0 ++ le4 0) ++
     (le4 0x3F800000 ++ le4 0 ++ le4 0) ++
     (le4 0 ++ le4 0x3F800000 ++ le4 0) ++
     [0, 0])

/- The three coordinates of corner j of STL face i as plain buffer reads
   (what `stlCorner` returns when no check fires). -/
def stlCornerVal (bs : List Nat) (i j : Nat) : Vec3 :=
  let base := 84 + 50 * i + 12 * (j + 1)
  (f32ValAt bs base, f32ValAt bs (base + 4), f32ValAt bs (base + 8))

def mshDefault : MshMesh :=
  { nvert := 0, nnormal := 0, ntexcoord := 0, nface := 0,
    vert := [], normal := [], texcoord := [], face := [], facenormal := [],
    facetexcoord := [] }

/- The 76-byte MSH file loaded with the zero-product scale (0,1,1). -/
def mshZLoaded : MshMesh := (loadMSH mshBuf76 scaleZ).toOption.getD mshDefault

/- The same file loaded with the identity scale. -/
def mshOneLoaded : MshMesh := (loadMSH mshBuf76 (1, 1, 1)).toOption.getD mshDefault

def stlDefaultRaw : StlRaw := { nface := 0, face := [], vert := [] }

/- The one-triangle STL loaded with a left-handed scale. -/
def stlNegLoaded : StlRaw :=
  (loadSTLraw stlBuf134 (-1, 1, 1)).toOption.getD stlDefaultRaw

/- ================================================================
   Theorems.  First the lemmas identifying the kernel-evaluable
   rational operations with the field operations of ℚ.
   ================================================================ -/

theorem qadd_eq (a b : ℚ) : qadd a b = a + b := (Rat.add_def' a b).symm

theorem qsub_eq (a b : ℚ) : qsub a b = a - b := (Rat.sub_def' a b).symm

theorem qmul_eq (a b : ℚ) : qmul a b = a * b := by
  rw [qmul, Rat.mul_def, Rat.normalize_eq_mkRat]

theorem qneg_eq (a : ℚ) : qneg a = -a := by
  rw [qneg, ← Rat.neg_mkRat, Rat.mkRat_self]

theorem qinv_eq (a : ℚ) : qinv a = a⁻¹ := (Rat.inv_def' a).symm

theorem qdiv_eq (a b : ℚ) : qdiv a b = a / b := by
  rw [qdiv, qmul_eq, qinv_eq, div_eq_mul_inv]

theorem qabs_eq (a : ℚ) : qabs a = |a| := by
  rw [qabs]
  split
  · rw [qneg_eq, abs_of_neg (by assumption)]
  · rw [abs_of_nonneg (le_of_not_lt (by assumption))]

theorem qmin_eq (a b : ℚ) : qmin a b = min a b := (min_def a b).symm

theorem qmax_eq (a b : ℚ) : qmax a b = max a b := (max_def a b).symm

/-- C10: when MakeGraph is invoked on a mesh with fewer than four vertices
it returns immediately: the hull engine is never consulted (the result is
the same for every engine), nothing is raised, and the graph/szgraph state
is untouched (outcome `skipped`, which Compile maps to an unchanged state). -/
theorem c10_makegraph_skips_small (engine engine2 : List Vec3 → Except Unit Hull)
    (nvert : Int) (vert : List Vec3) (h : nvert < 4) :
    makeGraph engine nvert vert = .skipped ∧
    makeGraph engine nvert vert = makeGraph engine2 nvert vert := by
  unfold makeGraph
  rw [if_pos h, if_pos h]
  exact ⟨rfl, rfl⟩

theorem c10_witness :
    ((3 : Int) < 4) ∧ makeGraph noEngine 3 [] = .skipped := by
  refine ⟨by decide, ?_⟩
  exact (c10_makegraph_skips_small noEngine engineBadFacet 3 [] (by decide)).1

/-- C8: the OBJ texcoord flip leaves the pair at index 0 untouched and
replaces the v component of every later pair by 1 - v (u components and the
array length are preserved). -/
theorem c8_obj_texcoord_flip (tc : List (ℚ × ℚ)) (i : Nat) (h : i < tc.length) :
    (objFlipTexcoord tc).length = tc.length ∧
    (objFlipTexcoord tc).getD i (0, 0) =
      (if i = 0 then tc.getD 0 (0, 0)
       else ((tc.getD i (0, 0)).1, 1 - (tc.getD i (0, 0)).2)) := by
  cases tc with
  | nil => simp at h
  | cons t0 rest =>
    refine ⟨by simp [objFlipTexcoord], ?_⟩
    cases i with
    | zero => simp [objFlipTexcoord]
    | succ k =>
      have hk : k < rest.length := by simpa using h
      have hk2 : k < (rest.map (fun t => (t.1, qsub 1 t.2))).length := by simpa using hk
      simp only [objFlipTexcoord, List.getD_cons_succ, Nat.succ_ne_zero, if_false]
      rw [List.getD_eq_getElem _ _ hk2, List.getElem_map, qsub_eq,
        List.getD_eq_getElem _ _ hk]

theorem c8_witness :
    (1 < ([(mkRat 1 4, mkRat 1 4), (mkRat 1 2, mkRat 1 4)] : List (ℚ × ℚ)).length) ∧
    (objFlipTexcoord [(mkRat 1 4, mkRat 1 4), (mkRat 1 2, mkRat 1 4)]).getD 1 (0, 0) =
      ((mkRat 1 2 : ℚ), 1 - mkRat 1 4) := by
  refine ⟨by decide, ?_⟩
  have h := (c8_obj_texcoord_flip [(mkRat 1 4, mkRat 1 4), (mkRat 1 2, mkRat 1 4)] 1
    (by decide)).2
  simpa using h

/-- C2: every accessor (GetInertiaBoxPtr, GetVolumeRef) goes through
CheckMesh: on a processed mesh CheckMesh yields the first applicable error
of the fixed sequence (inconsistent orientation, area, volume, eigenvalue,
triangle inequality) and the accessor raises exactly that error; on a
never-compiled mesh CheckMesh is silent and the accessor returns the stored
(zero-initialized) state.  In particular the compiled one-triangle mesh has
valid_area true and valid_volume false, and its first accessor raises
volume-too-small. -/
theorem c2_checkmesh_accessors :
    (∀ m : MeshState, m.processed = true → checkMesh m = firstApplicable m) ∧
    (∀ m : MeshState, m.processed = false → checkMesh m = none) ∧
    (∀ (ty : MeshType) (m : MeshState) (e : MeshErr), checkMesh m = some e →
      getInertiaBoxPtr ty m = .error e ∧ getVolumeRefVal ty m = .error e) ∧
    (∀ (ty : MeshType) (m : MeshState), checkMesh m = none →
      getInertiaBoxPtr ty m =
        .ok (if ty = mjSHELL_MESH then m.boxsz_surface else m.boxsz_volume) ∧
      getVolumeRefVal ty m = .ok (if ty = mjSHELL_MESH then m.surface else m.volume)) ∧
    (getInertiaBoxPtr mjVOLUME_MESH initMeshState = .ok (0, 0, 0)) ∧
    (compile cfg0 noEngine noEig oneTriMesh = .ok oneTriCompiled ∧
     oneTriCompiled.validarea = true ∧ oneTriCompiled.validvolume = false ∧
     getVolumeRefVal mjVOLUME_MESH oneTriCompiled = .error .volumeTooSmall ∧
     getInertiaBoxPtr mjVOLUME_MESH oneTriCompiled = .error .volumeTooSmall) := by
  refine ⟨?_, ?_, ?_, ?_, ?_, ?_⟩
  · intro m h
    by_cases h1 : m.invalidorientation.1 ≥ 0 ∨ m.invalidorientation.2 ≥ 0 <;>
      by_cases h2 : m.validarea <;> by_cases h3 : m.validvolume <;>
      by_cases h4 : m.valideigenvalue <;> by_cases h5 : m.validinequality <;>
      simp [checkMesh, firstApplicable, checkSequence, h, h1, h2, h3, h4, h5]
  · intro m h
    simp [checkMesh, h]
  · intro ty m e h
    constructor <;> simp [getInertiaBoxPtr, getVolumeRefVal, h]
  · intro ty m h
    constructor <;> simp [getInertiaBoxPtr, getVolumeRefVal, h]
  · rfl
  · exact ⟨by rfl, by rfl, by rfl, by rfl, by rfl⟩

theorem c2_witness :
    (oneTriCompiled.processed = true ∧
      checkMesh oneTriCompiled = firstApplicable oneTriCompiled) ∧
    (initMeshState.processed = false ∧ checkMesh initMeshState = none) := by
  refine ⟨⟨by rfl, c2_checkmesh_accessors.1 oneTriCompiled (by rfl)⟩,
          ⟨by rfl, c2_checkmesh_accessors.2.1 initMeshState (by rfl)⟩⟩

/- The MSH header constraints of §4.2.3, read off the raw buffer. -/
def mshConstraints (bs : List Nat) : Prop :=
  4 ≤ i32At bs 0 ∧ 0 ≤ i32At bs 12 ∧
    (i32At bs 4 = 0 ∨ i32At bs 4 = i32At bs 0) ∧
    (i32At bs 8 = 0 ∨ i32At bs 8 = i32At bs 0) ∧
    (bs.length : Int) =
      16 + 12 * i32At bs 0 + 12 * i32At bs 4 + 8 * i32At bs 8 + 12 * i32At bs 12

theorem mshConstraints_facts {bs : List Nat} (h : mshConstraints bs) :
    4 ≤ i32At bs 0 ∧ 0 ≤ i32At bs 4 ∧ 0 ≤ i32At bs 8 ∧ 0 ≤ i32At bs 12 ∧
      64 ≤ (bs.length : Int) := by
  obtain ⟨h1, h2, h3, h4, h5⟩ := h
  rcases h3 with h3 | h3 <;> rcases h4 with h4 | h4 <;> omega

theorem msh_ok_iff (bs : List Nat) (scale : Vec3) :
    (∃ m, loadMSH bs scale = .ok m) ↔ mshConstraints bs := by
  unfold loadMSH
  dsimp only
  split
  case isTrue h0 =>
    constructor
    · rintro ⟨m, h⟩
      simp at h
    · intro hc
      have := (mshConstraints_facts hc).2.2.2.2
      omega
  case isFalse h0 =>
    split
    case isTrue h1 =>
      constructor
      · rintro ⟨m, h⟩
        simp at h
      · intro hc
        have := (mshConstraints_facts hc).2.2.2.2
        omega
    case isFalse h1 =>
      split
      case isTrue h2 =>
        constructor
        · rintro ⟨m, h⟩
          simp at h
        · rintro ⟨hnv, hnf, hnn, hnt, hsz⟩
          rcases hnn with h3 | h3 <;> rcases hnt with h4 | h4 <;> omega
      case isFalse h2 =>
        split
        case isTrue h3 =>
          constructor
          · rintro ⟨m, h⟩
            simp at h
          · rintro ⟨hnv, hnf, hnn, hnt, hsz⟩
            exact absurd hsz h3
        case isFalse h3 =>
          constructor
          · intro _
            refine ⟨by omega, by omega, by omega, by omega, by omega⟩
          · intro _
            exact ⟨_, rfl⟩

/- Field characterization of a successful MSH load. -/
theorem loadMSH_ok_fields (bs : List Nat) (scale : Vec3) (m : MshMesh)
    (h : loadMSH bs scale = .ok m) :
    m.nvert = i32At bs 0 ∧ m.nnormal = i32At bs 4 ∧ m.ntexcoord = i32At bs 8 ∧
      m.nface = i32At bs 12 ∧ m.facenormal = mshReadFaces bs ∧
      m.face = (if i32At bs 12 > 0 ∧ ¬righthand scale then
          swap23Flat (mshReadFaces bs) else mshReadFaces bs) ∧
      m.texcoord = (if i32At bs 8 > 0 then
          mshFloats bs (16 + 12 * (i32At bs 0).toNat + 12 * (i32At bs 4).toNat)
            (2 * (i32At bs 0).toNat) else []) := by
  unfold loadMSH at h
  dsimp only at h
  split at h
  · simp at h
  · split at h
    · simp at h
    · split at h
      · simp at h
      · split at h
        · simp at h
        · injection h with h
          subst h
          exact ⟨rfl, rfl, rfl, rfl, rfl, rfl, rfl⟩

/- An MSH load with non-positive face count reads no face data. -/
theorem mshReadFaces_nonpos (bs : List Nat) (h : ¬i32At bs 12 > 0) :
    mshReadFaces bs = [] := by
  unfold mshReadFaces
  dsimp only
  rw [if_neg h]

theorem c5_counterexample :
    loadMSH mshBuf76 scaleZ = .ok mshZLoaded ∧ mshZLoaded.nface = 1 ∧
      mshZLoaded.facenormal = [0, 1, 2] ∧ mshZLoaded.face = [0, 2, 1] ∧
      ¬mshZLoaded.facenormal = mshZLoaded.face := by
  exact ⟨by rfl, by rfl, by rfl, by rfl, by decide⟩

/-- C5 (amended): LoadMSH raises a structured error exactly when the header
constraints fail (nvert ≥ 4, nface ≥ 0, nnormal ∈ {0, nvert},
ntexcoord ∈ {0, nvert}, buffer exactly 16 + 12·nvert + 12·nnormal +
8·ntexcoord + 12·nface bytes); on success, facenormal is an element-wise
copy of the face indices as read from the file, and it equals the stored
face array exactly when the load is right-handed — a left-handed load swaps
each stored face's 2nd and 3rd entries in `face` only, leaving `facenormal`
in read order. -/
theorem c5_loadmsh_amended (bs : List Nat) (scale : Vec3) :
    ((∃ e, loadMSH bs scale = .error e) ↔ ¬mshConstraints bs) ∧
    (∀ m, loadMSH bs scale = .ok m →
      m.facenormal = mshReadFaces bs ∧
      m.face = (if righthand scale then mshReadFaces bs else swap23Flat (mshReadFaces bs)) ∧
      (righthand scale = true → m.facenormal = m.face)) := by
  constructor
  · cases hr : loadMSH bs scale with
    | error e =>
      constructor
      · intro _ hc
        obtain ⟨m, hm⟩ := (msh_ok_iff bs scale).mpr hc
        rw [hr] at hm
        simp at hm
      · intro _
        exact ⟨e, rfl⟩
    | ok m =>
      have hc := (msh_ok_iff bs scale).mp ⟨m, hr⟩
      constructor
      · rintro ⟨e, he⟩
        simp at he
      · intro hnc
        exact absurd hc hnc
  · intro m h
    obtain ⟨_, _, _, _, hfn, hface, _⟩ := loadMSH_ok_fields bs scale m h
    refine ⟨hfn, ?_, ?_⟩
    · rw [hface]
      by_cases hrh : righthand scale
      · simp [hrh]
      · by_cases hnf : i32At bs 12 > 0
        · simp [hrh, hnf]
        · rw [mshReadFaces_nonpos bs hnf]
          simp [hrh, hnf, swap23Flat]
    · intro hrh
      rw [hfn, hface]
      simp [hrh]

theorem c5_witness :
    righthand ((1 : ℚ), (1 : ℚ), (1 : ℚ)) = true ∧
      loadMSH mshBuf76 (1, 1, 1) = .ok mshOneLoaded ∧
      mshOneLoaded.facenormal = mshOneLoaded.face := by
  refine ⟨by decide, by rfl, ?_⟩
  exact ((c5_loadmsh_amended mshBuf76 (1, 1, 1)).2 mshOneLoaded (by rfl)).2.2 (by decide)

/- A successful corner read returns the plain buffer values. -/
theorem stlCorner_ok (bs : List Nat) (i j : Nat) (v : Vec3)
    (h : stlCorner bs i j = .ok v) : v = stlCornerVal bs i j := by
  unfold stlCorner at h
  dsimp only at h
  split at h
  · simp at h
  · split at h
    · simp at h
    · split at h
      · simp at h
      · injection h with h
        subst h
        rfl

/- A successful run of the face loop yields exactly the per-face triples and
   the corner values, in read order. -/
theorem stlFaces_ok (bs : List Nat) (rh : Bool) :
    ∀ (cnt i : Nat) (items : List ((Nat × Nat × Nat) × List Vec3)),
      stlFaces bs rh cnt i = .ok items →
      items = (List.range' i cnt).map (fun k =>
        (stlFaceTriple rh k,
         [stlCornerVal bs k 0, stlCornerVal bs k 1, stlCornerVal bs k 2])) := by
  intro cnt
  induction cnt with
  | zero =>
    intro i items h
    injection h with h
    subst h
    rfl
  | succ n ih =>
    intro i items h
    unfold stlFaces at h
    split at h
    · simp at h
    case h_2 f hf =>
      split at h
      · simp at h
      case h_2 rest hrest =>
        injection h with h
        subst h
        unfold stlFace at hf
        split at hf
        · simp at hf
        case h_2 u0 h0 =>
          split at hf
          · simp at hf
          case h_2 u1 h1 =>
            split at hf
            · simp at hf
            case h_2 u2 h2 =>
              injection hf with hf
              subst hf
              rw [ih (i + 1) rest hrest, List.range'_succ, List.map_cons]
              rw [stlCorner_ok bs i 0 u0 h0, stlCorner_ok bs i 1 u1 h1, stlCorner_ok bs i 2 u2 h2]

theorem map_flatMap_snd {α β γ : Type} (f : α → β × List γ) (l : List α) :
    (l.map f).flatMap Prod.snd = l.flatMap (fun a => (f a).2) := by
  induction l with
  | nil => rfl
  | cons a t ih => simp only [List.map_cons, List.flatMap_cons, ih]

/- Field characterization of a successful raw STL load. -/
theorem loadSTLraw_ok (bs : List Nat) (scale : Vec3) (raw : StlRaw)
    (h : loadSTLraw bs scale = .ok raw) :
    raw.nface = toInt32 (leWord bs 80) ∧
      raw.face = (List.range' 0 raw.nface.toNat).map (stlFaceTriple (righthand scale)) ∧
      raw.vert = (List.range' 0 raw.nface.toNat).flatMap
        (fun k => [stlCornerVal bs k 0, stlCornerVal bs k 1, stlCornerVal bs k 2]) := by
  unfold loadSTLraw at h
  dsimp only at h
  split at h
  · simp at h
  · split at h
    · simp at h
    · split at h
      · simp at h
      · split at h
        · simp at h
        · split at h
          · simp at h
          case h_2 items hitems =>
            injection h with h
            subst h
            refine ⟨rfl, ?_, ?_⟩
            · rw [stlFaces_ok bs (righthand scale) _ 0 items hitems, List.map_map]
              rfl
            · rw [stlFaces_ok bs (righthand scale) _ 0 items hitems]
              exact map_flatMap_snd _ _

/- The net effect of the per-corner slot writes. -/
theorem stlFaceTriple_eq (rh : Bool) (i : Nat) :
    stlFaceTriple rh i =
      (if rh then (3 * i, 3 * i + 1, 3 * i + 2) else (3 * i, 3 * i + 2, 3 * i + 1)) := by
  cases rh <;> rfl

theorem objFaceIndices_ok (rh : Bool) :
    ∀ (fs : List (List Int)) (out : List Int), objFaceIndices rh fs = .ok out →
      out = fs.flatMap (objExpandFace rh) := by
  intro fs
  induction fs with
  | nil =>
    intro out h
    injection h with h
    subst h
    rfl
  | cons f rest ih =>
    intro out h
    unfold objFaceIndices at h
    split at h
    · simp at h
    · split at h
      · simp at h
      case h_2 r hr =>
        injection h with h
        subst h
        rw [List.flatMap_cons, ih r hr]

theorem c6_counterexample :
    ¬(scaleZ.1 * scaleZ.2.1 * scaleZ.2.2 < 0) ∧ righthand scaleZ = false ∧
      loadMSH mshBuf76 scaleZ = .ok mshZLoaded ∧
      mshZLoaded.facenormal = [0, 1, 2] ∧ mshZLoaded.face = [0, 2, 1] := by
  refine ⟨?_, by decide, by rfl, by rfl, by rfl⟩
  show ¬((0 : ℚ) * 1 * 1 < 0)
  norm_num

/-- C6 (amended): for every loader the stored triangles are in read order
exactly when the scale product is positive, and swapped in their 2nd and
3rd entries otherwise — i.e. the load is left-handed exactly when
scale.x·scale.y·scale.z is NOT positive (≤ 0), not only when it is
negative.  MSH: face is facenormal (the read order) or its 2-3 swap.
STL: face i is (3i, 3i+1, 3i+2) or (3i, 3i+2, 3i+1) over the corner
stream read in order.  OBJ: each parsed triangle (a,b,c) is emitted as
(a,b,c) or (a,c,b), each quad (a,b,c,d) as its two fan triangles with the
same swap. -/
theorem c6_handedness_amended :
    (∀ scale : Vec3, righthand scale = false ↔ scale.1 * scale.2.1 * scale.2.2 ≤ 0) ∧
    (∀ (bs : List Nat) (scale : Vec3) (m : MshMesh), loadMSH bs scale = .ok m →
      m.face = (if righthand scale then m.facenormal else swap23Flat m.facenormal)) ∧
    (∀ (bs : List Nat) (scale : Vec3) (raw : StlRaw), loadSTLraw bs scale = .ok raw →
      raw.face = (List.range' 0 raw.nface.toNat).map (stlFaceTriple (righthand scale)) ∧
      raw.vert = (List.range' 0 raw.nface.toNat).flatMap
        (fun k => [stlCornerVal bs k 0, stlCornerVal bs k 1, stlCornerVal bs k 2]) ∧
      (∀ i : Nat, stlFaceTriple (righthand scale) i =
        (if righthand scale then (3 * i, 3 * i + 1, 3 * i + 2)
         else (3 * i, 3 * i + 2, 3 * i + 1)))) ∧
    (∀ (rh : Bool) (fs : List (List Int)) (out : List Int), objFaceIndices rh fs = .ok out →
      out = fs.flatMap (objExpandFace rh)) ∧
    (∀ (rh : Bool) (a b c : Int),
      objExpandFace rh [a, b, c] = (if rh then [a, b, c] else [a, c, b])) ∧
    (∀ (rh : Bool) (a b c d : Int),
      objExpandFace rh [a, b, c, d] =
        (if rh then [a, b, c, a, c, d] else [a, c, b, a, d, c])) := by
  refine ⟨?_, ?_, ?_, ?_, ?_, ?_⟩
  · intro scale
    unfold righthand
    rw [qmul_eq, qmul_eq]
    constructor
    · intro h
      have := of_decide_eq_false h
      exact le_of_not_lt this
    · intro h
      exact decide_eq_false (not_lt.mpr h)
  · intro bs scale m h
    obtain ⟨_, _, _, _, hfn, hface, _⟩ := loadMSH_ok_fields bs scale m h
    rw [hface, hfn]
    by_cases hrh : righthand scale
    · simp [hrh]
    · by_cases hnf : i32At bs 12 > 0
      · simp [hrh, hnf]
      · rw [mshReadFaces_nonpos bs hnf]
        simp [hrh, hnf, swap23Flat]
  · intro bs scale raw h
    obtain ⟨_, hface, hvert⟩ := loadSTLraw_ok bs scale raw h
    exact ⟨hface, hvert, fun i => stlFaceTriple_eq (righthand scale) i⟩
  · exact objFaceIndices_ok
  · intro rh a b c
    cases rh <;> rfl
  · intro rh a b c d
    cases rh <;> rfl

set_option maxRecDepth 10000 in
theorem c6_witness :
    loadSTLraw stlBuf134 (-1, 1, 1) = .ok stlNegLoaded ∧
      righthand (-1, 1, 1) = false ∧ stlNegLoaded.face = [(0, 2, 1)] ∧
      stlNegLoaded.face =
        (List.range' 0 stlNegLoaded.nface.toNat).map (stlFaceTriple (righthand (-1, 1, 1))) := by
  refine ⟨by rfl, by decide, by decide, ?_⟩
  exact ((c6_handedness_amended.2.2.1) stlBuf134 (-1, 1, 1) stlNegLoaded (by rfl)).1

theorem mshFloats_length (bs : List Nat) (off cnt : Nat) : (mshFloats bs off cnt).length = cnt := by
  simp [mshFloats]

theorem c9_counterexample :
    compile cfg0 noEngine noEig texMismatchMesh = .ok texMismatchCompiled ∧
      texMismatchCompiled.texcoord ≠ [] ∧
      texMismatchCompiled.texcoord.length ≠ texMismatchCompiled.nvert := by
  exact ⟨by rfl, by decide, by decide⟩

/-- C9 (amended): the empty-or-exactly-nvert texcoord invariant is enforced
by the MSH loader (ntexcoord ∈ {0, nvert}; the texcoord array is empty or
holds exactly nvert pairs), but Compile itself checks only that the staged
texcoord array has even length, so it accepts meshes whose compiled
texcoord count differs from nvert. -/
theorem c9_texcoord_amended :
    (∀ (bs : List Nat) (scale : Vec3) (m : MshMesh), loadMSH bs scale = .ok m →
      (m.ntexcoord = 0 ∨ m.ntexcoord = m.nvert) ∧
      (m.texcoord = [] ∨ m.texcoord.length = 2 * m.nvert.toNat)) ∧
    (compile cfg0 noEngine noEig texMismatchMesh = .ok texMismatchCompiled ∧
      texMismatchCompiled.processed = true ∧
      texMismatchCompiled.nvert = 4 ∧ texMismatchCompiled.ntexcoord = 1 ∧
      texMismatchCompiled.texcoord.length = 1) := by
  constructor
  · intro bs scale m h
    have hc := (msh_ok_iff bs scale).mp ⟨m, h⟩
    obtain ⟨hnv, hnn, hnt, hnf, _, _, htex⟩ := loadMSH_ok_fields bs scale m h
    constructor
    · rw [hnt, hnv]
      exact hc.2.2.2.1
    · rw [htex, hnv]
      by_cases hpos : i32At bs 8 > 0
      · rw [if_pos hpos]
        exact Or.inr (mshFloats_length _ _ _)
      · rw [if_neg hpos]
        exact Or.inl rfl
  · exact ⟨by rfl, by rfl, by rfl, by rfl, by rfl⟩

theorem c9_witness :
    loadMSH mshBuf76 (1, 1, 1) = .ok mshOneLoaded ∧
      (mshOneLoaded.ntexcoord = 0 ∨ mshOneLoaded.ntexcoord = mshOneLoaded.nvert) := by
  refine ⟨by rfl, ?_⟩
  exact ((c9_texcoord_amended.1) mshBuf76 (1, 1, 1) mshOneLoaded (by rfl)).1

theorem loadSTL_of_raw_error (bs : List Nat) (scale : Vec3) (e : StlErr)
    (h : loadSTLraw bs scale = .error e) : loadSTL bs scale = .error e := by
  unfold loadSTL
  rw [h]

theorem stlCheckCoord_mem (f : F32) (e : StlErr) (h : stlCheckCoord f = some e) :
    e = .invalidFloat ∨ e = .coordOverflow := by
  unfold stlCheckCoord at h
  split at h
  · injection h with h
    exact Or.inl h.symm
  · split at h
    · injection h with h
      exact Or.inr h.symm
    · simp at h

theorem stlCorner_error_mem (bs : List Nat) (i j : Nat) (e : StlErr)
    (h : stlCorner bs i j = .error e) : e = .invalidFloat ∨ e = .coordOverflow := by
  unfold stlCorner at h
  dsimp only at h
  split at h
  case h_1 e' he =>
    injection h with h
    exact h ▸ stlCheckCoord_mem _ _ he
  · split at h
    case h_1 e' he =>
      injection h with h
      exact h ▸ stlCheckCoord_mem _ _ he
    · split at h
      case h_1 e' he =>
        injection h with h
        exact h ▸ stlCheckCoord_mem _ _ he
      · simp at h

theorem stlFace_error_mem (bs : List Nat) (rh : Bool) (i : Nat) (e : StlErr)
    (h : stlFace bs rh i = .error e) : e = .invalidFloat ∨ e = .coordOverflow := by
  unfold stlFace at h
  split at h
  case h_1 e' he =>
    injection h with h
    exact h ▸ stlCorner_error_mem bs i 0 e' he
  · split at h
    case h_1 e' he =>
      injection h with h
      exact h ▸ stlCorner_error_mem bs i 1 e' he
    · split at h
      case h_1 e' he =>
        injection h with h
        exact h ▸ stlCorner_error_mem bs i 2 e' he
      · simp at h

theorem stlFace_ok_of_corners (bs : List Nat) (rh : Bool) (i : Nat)
    (h : ∀ j, j < 3 → stlCorner bs i j = .ok (stlCornerVal bs i j)) :
    stlFace bs rh i =
      .ok (stlFaceTriple rh i,
        [stlCornerVal bs i 0, stlCornerVal bs i 1, stlCornerVal bs i 2]) := by
  unfold stlFace
  rw [h 0 (by omega), h 1 (by omega), h 2 (by omega)]

theorem stlFaces_error_of_bad (bs : List Nat) (rh : Bool) :
    ∀ (cnt i0 : Nat), (∃ k, k < cnt ∧ ∃ e, stlFace bs rh (i0 + k) = .error e) →
      ∃ e, stlFaces bs rh cnt i0 = .error e ∧ (e = .invalidFloat ∨ e = .coordOverflow) := by
  intro cnt
  induction cnt with
  | zero =>
    rintro i0 ⟨k, hk, _⟩
    omega
  | succ n ih =>
    rintro i0 ⟨k, hk, e, he⟩
    cases hf : stlFace bs rh i0 with
    | error e0 =>
      refine ⟨e0, ?_, stlFace_error_mem bs rh i0 e0 hf⟩
      unfold stlFaces
      rw [hf]
    | ok f =>
      have hk0 : k ≠ 0 := by
        rintro rfl
        rw [Nat.add_zero, hf] at he
        simp at he
      obtain ⟨k', rfl⟩ : ∃ k', k = k' + 1 := ⟨k - 1, by omega⟩
      obtain ⟨e1, he1, hmem⟩ := ih (i0 + 1)
        ⟨k', by omega, e, by rw [show i0 + 1 + k' = i0 + (k' + 1) by omega]; exact he⟩
      refine ⟨e1, ?_, hmem⟩
      unfold stlFaces
      rw [hf, he1]

theorem stlFaces_ok_of_good (bs : List Nat) (rh : Bool) :
    ∀ (cnt i0 : Nat),
      (∀ k, k < cnt → ∀ j, j < 3 → stlCorner bs (i0 + k) j = .ok (stlCornerVal bs (i0 + k) j)) →
      ∃ items, stlFaces bs rh cnt i0 = .ok items := by
  intro cnt
  induction cnt with
  | zero =>
    intro i0 _
    exact ⟨[], rfl⟩
  | succ n ih =>
    intro i0 hgood
    have hf := stlFace_ok_of_corners bs rh i0 (by
      intro j hj
      have := hgood 0 (by omega) j hj
      rwa [Nat.add_zero] at this)
    obtain ⟨rest, hrest⟩ := ih (i0 + 1) (by
      intro k hk j hj
      have := hgood (k + 1) (by omega) j hj
      rwa [show i0 + (k + 1) = i0 + 1 + k by omega] at this)
    refine ⟨(stlFaceTriple rh i0,
      [stlCornerVal bs i0 0, stlCornerVal bs i0 1, stlCornerVal bs i0 2]) :: rest, ?_⟩
    unfold stlFaces
    rw [hf, hrest]

theorem flatMap_length_three {α : Type} (l : List Nat) (f : Nat → List α)
    (h : ∀ k, (f k).length = 3) : (l.flatMap f).length = 3 * l.length := by
  induction l with
  | nil => rfl
  | cons a t ih =>
    rw [List.flatMap_cons, List.length_append, ih, List.length_cons, h a]
    omega

/-- C4: LoadSTL raises a structured error when the buffer is smaller than
84 bytes (the empty-file error at size 0, the malformed-header error
otherwise), when the u32 face count at offset 80 is outside [1, 200000],
when the buffer size differs from 84 + 50·N, and when any parsed vertex
coordinate is NaN/Inf (invalid-float) or exceeds 2^30 in magnitude
(coordinate overflow); on a valid buffer it stages exactly 3·N vertices
(one per face corner, in read order) and N faces and then runs the
vertex deduplication (RemoveRepeated) on that staging. -/
theorem c4_loadstl (bs : List Nat) (scale : Vec3) :
    (bs.length = 0 → loadSTL bs scale = .error .empty) ∧
    (bs.length ≠ 0 → bs.length < 84 → loadSTL bs scale = .error .malformedHeader) ∧
    (84 ≤ bs.length → (toInt32 (leWord bs 80) < 1 ∨ toInt32 (leWord bs 80) > 200000) →
      loadSTL bs scale = .error .badFaceCount) ∧
    (84 ≤ bs.length → 1 ≤ toInt32 (leWord bs 80) → toInt32 (leWord bs 80) ≤ 200000 →
      toInt32 (leWord bs 80) * 50 ≠ (bs.length : Int) - 84 →
      loadSTL bs scale = .error .sizeMismatch) ∧
    (84 ≤ bs.length → 1 ≤ toInt32 (leWord bs 80) → toInt32 (leWord bs 80) ≤ 200000 →
      toInt32 (leWord bs 80) * 50 = (bs.length : Int) - 84 →
      (∃ k, k < (toInt32 (leWord bs 80)).toNat ∧ ∃ j, j < 3 ∧ ∃ e, stlCorner bs k j = .error e) →
      ∃ e, loadSTL bs scale = .error e ∧ (e = .invalidFloat ∨ e = .coordOverflow)) ∧
    (84 ≤ bs.length → 1 ≤ toInt32 (leWord bs 80) → toInt32 (leWord bs 80) ≤ 200000 →
      toInt32 (leWord bs 80) * 50 = (bs.length : Int) - 84 →
      (∀ k, k < (toInt32 (leWord bs 80)).toNat → ∀ j, j < 3 →
        stlCorner bs k j = .ok (stlCornerVal bs k j)) →
      ∃ raw, loadSTLraw bs scale = .ok raw ∧ raw.nface = toInt32 (leWord bs 80) ∧
        raw.face.length = (toInt32 (leWord bs 80)).toNat ∧
        raw.vert.length = 3 * (toInt32 (leWord bs 80)).toNat ∧
        loadSTL bs scale = removeRepeated raw) := by
  refine ⟨?_, ?_, ?_, ?_, ?_, ?_⟩
  · intro h0
    apply loadSTL_of_raw_error
    unfold loadSTLraw
    rw [if_pos h0]
  · intro h0 h1
    apply loadSTL_of_raw_error
    unfold loadSTLraw
    rw [if_neg h0, if_pos h1]
  · intro h1 hn
    apply loadSTL_of_raw_error
    unfold loadSTLraw
    dsimp only
    rw [if_neg (by omega), if_neg (by omega), if_pos hn]
  · intro h1 hn1 hn2 hsz
    apply loadSTL_of_raw_error
    unfold loadSTLraw
    dsimp only
    rw [if_neg (by omega), if_neg (by omega), if_neg (by simp; omega), if_pos hsz]
  · intro h1 hn1 hn2 hsz hbad
    obtain ⟨k, hk, j, hj, e, he⟩ := hbad
    have hbadf : ∃ k2, k2 < (toInt32 (leWord bs 80)).toNat ∧
        ∃ e2, stlFace bs (righthand scale) (0 + k2) = .error e2 := by
      refine ⟨k, hk, ?_⟩
      rw [Nat.zero_add]
      cases hf : stlFace bs (righthand scale) k with
      | error e2 => exact ⟨e2, rfl⟩
      | ok f =>
        exfalso
        unfold stlFace at hf
        split at hf
        case h_1 => rcases (by omega : j = 0 ∨ j = 1 ∨ j = 2) with rfl | rfl | rfl <;>
          simp_all
        case h_2 u0 h0 =>
          split at hf
          case h_1 => rcases (by omega : j = 0 ∨ j = 1 ∨ j = 2) with rfl | rfl | rfl <;>
            simp_all
          case h_2 u1 hu1 =>
            split at hf
            case h_1 => rcases (by omega : j = 0 ∨ j = 1 ∨ j = 2) with rfl | rfl | rfl <;>
              simp_all
            case h_2 u2 hu2 => rcases (by omega : j = 0 ∨ j = 1 ∨ j = 2) with rfl | rfl | rfl <;>
              simp_all
    obtain ⟨e1, he1, hmem⟩ :=
      stlFaces_error_of_bad bs (righthand scale) (toInt32 (leWord bs 80)).toNat 0 hbadf
    refine ⟨e1, ?_, hmem⟩
    apply loadSTL_of_raw_error
    unfold loadSTLraw
    dsimp only
    rw [if_neg (by omega), if_neg (by omega), if_neg (by simp; omega), if_neg (by omega), he1]
  · intro h1 hn1 hn2 hsz hgood
    obtain ⟨items, hitems⟩ := stlFaces_ok_of_good bs (righthand scale)
      (toInt32 (leWord bs 80)).toNat 0 (by
        intro k hk j hj
        rw [Nat.zero_add]
        exact hgood k hk j hj)
    have hraw : loadSTLraw bs scale =
        .ok ⟨toInt32 (leWord bs 80), items.map Prod.fst, items.flatMap Prod.snd⟩ := by
      unfold loadSTLraw
      dsimp only
      rw [if_neg (by omega), if_neg (by omega), if_neg (by simp; omega), if_neg (by omega), hitems]
    refine ⟨_, hraw, rfl, ?_, ?_, ?_⟩
    · obtain ⟨_, hface, _⟩ := loadSTLraw_ok bs scale _ hraw
      simp only at hface
      rw [hface, List.length_map, List.length_range']
    · obtain ⟨_, _, hvert⟩ := loadSTLraw_ok bs scale _ hraw
      simp only at hvert
      rw [hvert, flatMap_length_three (List.range' 0 (toInt32 (leWord bs 80)).toNat)
        (fun k => [stlCornerVal bs k 0, stlCornerVal bs k 1, stlCornerVal bs k 2])
        (fun k => rfl), List.length_range']
    · unfold loadSTL
      rw [hraw]

set_option maxRecDepth 40000 in
theorem c4_witness :
    (84 ≤ stlBuf134.length ∧ toInt32 (leWord stlBuf134 80) = 1 ∧
      toInt32 (leWord stlBuf134 80) * 50 = (stlBuf134.length : Int) - 84) ∧
    (∃ raw, loadSTLraw stlBuf134 (1, 1, 1) = .ok raw ∧
      raw.nface = toInt32 (leWord stlBuf134 80) ∧
      raw.face.length = (toInt32 (leWord stlBuf134 80)).toNat ∧
      raw.vert.length = 3 * (toInt32 (leWord stlBuf134 80)).toNat ∧
      loadSTL stlBuf134 (1, 1, 1) = removeRepeated raw) := by
  refine ⟨⟨by decide, by decide, by decide⟩, ?_⟩
  exact (c4_loadstl stlBuf134 (1, 1, 1)).2.2.2.2.2 (by decide) (by decide) (by decide)
    (by decide) (by decide)

theorem getD_set_self (l : List ℚ) (i : Nat) (a : ℚ) (h : i < l.length) :
    (l.set i a).getD i 0 = a := by
  induction l generalizing i with
  | nil => simp at h
  | cons b t ih =>
    cases i with
    | zero => rfl
    | succ k => exact ih k (by simpa using h)

theorem getD_set_ne (l : List ℚ) (i j : Nat) (a : ℚ) (h : i ≠ j) :
    (l.set i a).getD j 0 = l.getD j 0 := by
  induction l generalizing i j with
  | nil => rfl
  | cons b t ih =>
    cases i with
    | zero =>
      cases j with
      | zero => exact absurd rfl h
      | succ k => rfl
    | succ k =>
      cases j with
      | zero => rfl
      | succ k2 => exact ih k k2 (by omega)

theorem pairSum_nil (v : Nat) : pairSum [] v = 0 := rfl

theorem getD_replicate_zero (n v : Nat) : (List.replicate n (0 : ℚ)).getD v 0 = 0 := by
  induction n generalizing v with
  | zero => rfl
  | succ k ih =>
    cases v with
    | zero => rfl
    | succ v2 => exact ih v2

theorem pairSum_cons (jj : Int) (w : ℚ) (rest : List (Int × ℚ)) (v : Nat) :
    pairSum ((jj, w) :: rest) v = (if jj = (v : Int) then w else 0) + pairSum rest v := by
  unfold pairSum
  by_cases hc : jj = (v : Int)
  · simp [hc]
  · simp [hc]

theorem pairSum_append (l1 l2 : List (Int × ℚ)) (v : Nat) :
    pairSum (l1 ++ l2) v = pairSum l1 v + pairSum l2 v := by
  unfold pairSum
  rw [List.filter_append, List.map_append, List.sum_append]

/- Accumulating one bone adds exactly the per-vertex pair sums, and checks
   every id into [0, nvert). -/
theorem skinAccumBone_ok (nvert : Nat) :
    ∀ (pairs : List (Int × ℚ)) (vw vw2 : List ℚ), vw.length = nvert →
      skinAccumBone nvert pairs vw = .ok vw2 →
      vw2.length = nvert ∧
      (∀ v : Nat, v < nvert → vw2.getD v 0 = vw.getD v 0 + pairSum pairs v) ∧
      (∀ p ∈ pairs, 0 ≤ p.1 ∧ p.1 < (nvert : Int)) := by
  intro pairs
  induction pairs with
  | nil =>
    intro vw vw2 hlen h
    injection h with h
    subst h
    exact ⟨hlen, fun v _ => by rw [pairSum_nil, add_zero],
      fun p hp => absurd hp (List.not_mem_nil p)⟩
  | cons pr rest ih =>
    intro vw vw2 hlen h
    obtain ⟨jj, w⟩ := pr
    unfold skinAccumBone at h
    split at h
    · simp at h
    case isFalse hrange =>
      have hjj : 0 ≤ jj ∧ jj < (nvert : Int) := by
        push_neg at hrange
        omega
      have hlen1 : (vw.set jj.toNat (qadd (vw.getD jj.toNat 0) w)).length = nvert := by
        rw [List.length_set]
        exact hlen
      obtain ⟨h1, h2, h3⟩ := ih _ vw2 hlen1 h
      refine ⟨h1, ?_, ?_⟩
      · intro v hv
        rw [h2 v hv, pairSum_cons]
        by_cases hc : jj = (v : Int)
        · have hjv : jj.toNat = v := by omega
          rw [if_pos hc, hjv, getD_set_self vw v _ (by omega), qadd_eq]
          ring
        · have hjv : jj.toNat ≠ v := by omega
          rw [if_neg hc, getD_set_ne vw jj.toNat v _ hjv]
          ring
      · intro p hp
        rcases List.mem_cons.mp hp with rfl | hp2
        · exact hjj
        · exact h3 p hp2

/- Accumulation over all bones: the totals are exactly the spec-level pair
   sums, and every referenced id is in range. -/
theorem skinAccum_ok (nvert : Nat) :
    ∀ (bones : List Bone) (vw vw2 : List ℚ), vw.length = nvert →
      skinAccum nvert bones vw = .ok vw2 →
      vw2.length = nvert ∧
      (∀ v : Nat, v < nvert → vw2.getD v 0 = vw.getD v 0 + pairSum (pairsOf bones) v) ∧
      (∀ p ∈ pairsOf bones, 0 ≤ p.1 ∧ p.1 < (nvert : Int)) := by
  intro bones
  induction bones with
  | nil =>
    intro vw vw2 hlen h
    injection h with h
    subst h
    refine ⟨hlen, fun v _ => ?_, fun p hp => ?_⟩
    · show vw.getD v 0 = vw.getD v 0 + pairSum [] v
      rw [pairSum_nil, add_zero]
    · exact absurd hp (List.not_mem_nil p)
  | cons b rest ih =>
    intro vw vw2 hlen h
    obtain ⟨ids, ws⟩ := b
    unfold skinAccum at h
    split at h
    · simp at h
    · split at h
      · simp at h
      case h_2 vw1 hvw1 =>
        obtain ⟨hb1, hb2, hb3⟩ := skinAccumBone_ok nvert (ids.zip ws) vw vw1 hlen hvw1
        obtain ⟨h1, h2, h3⟩ := ih vw1 vw2 hb1 h
        refine ⟨h1, ?_, ?_⟩
        · intro v hv
          have : pairsOf ((ids, ws) :: rest) = ids.zip ws ++ pairsOf rest := by
            unfold pairsOf
            rw [List.flatMap_cons]
          rw [h2 v hv, hb2 v hv, this, pairSum_append]
          ring
        · intro p hp
          have : pairsOf ((ids, ws) :: rest) = ids.zip ws ++ pairsOf rest := by
            unfold pairsOf
            rw [List.flatMap_cons]
          rw [this, List.mem_append] at hp
          rcases hp with hp | hp
          · exact hb3 p hp
          · exact h3 p hp

theorem skinCoverageGo_bad :
    ∀ (vw : List ℚ) (i0 : Nat), (∃ k, k < vw.length ∧ vw.getD k 0 ≤ mjMINVAL) →
      ∃ i, skinCoverageGo vw i0 = some (.zeroWeight i) := by
  intro vw
  induction vw with
  | nil =>
    rintro i0 ⟨k, hk, _⟩
    simp at hk
  | cons w rest ih =>
    rintro i0 ⟨k, hk, hle⟩
    unfold skinCoverageGo
    by_cases hw : w ≤ mjMINVAL
    · exact ⟨i0, by rw [if_pos hw]⟩
    · rw [if_neg hw]
      have hk0 : k ≠ 0 := by
        rintro rfl
        exact hw hle
      obtain ⟨k', rfl⟩ : ∃ k', k = k' + 1 := ⟨k - 1, by omega⟩
      exact ih (i0 + 1) ⟨k', by simpa using hk, hle⟩

theorem skinCoverageGo_none :
    ∀ (vw : List ℚ) (i0 : Nat), skinCoverageGo vw i0 = none →
      ∀ k, k < vw.length → ¬vw.getD k 0 ≤ mjMINVAL := by
  intro vw
  induction vw with
  | nil =>
    intro i0 _ k hk
    simp at hk
  | cons w rest ih =>
    intro i0 h k hk
    unfold skinCoverageGo at h
    split at h
    · simp at h
    case isFalse hw =>
      cases k with
      | zero => exact hw
      | succ k' => exact ih (i0 + 1) h k' (by simpa using hk)

theorem zip_map_snd (g : Int × ℚ → ℚ) :
    ∀ (ids : List Int) (ws : List ℚ),
      ids.zip ((ids.zip ws).map g) = (ids.zip ws).map (fun p => (p.1, g p)) := by
  intro ids
  induction ids with
  | nil => intro ws; rfl
  | cons a t ih =>
    intro ws
    cases ws with
    | nil => rfl
    | cons w tw =>
      show (a, g (a, w)) :: t.zip ((t.zip tw).map g) = (a, g (a, w)) :: (t.zip tw).map _
      rw [ih tw]

theorem flatMap_map_comm {α β γ : Type} (l : List α) (f : α → List β) (g : β → γ) :
    l.flatMap (fun a => (f a).map g) = (l.flatMap f).map g := by
  induction l with
  | nil => rfl
  | cons a t ih =>
    rw [List.flatMap_cons, List.flatMap_cons, List.map_append, ih]

theorem filter_map_fst (v : Nat) (g : Int × ℚ → ℚ) :
    ∀ l : List (Int × ℚ),
      (l.map (fun p => (p.1, g p))).filter (fun q => q.1 = (v : Int)) =
        (l.filter (fun q => q.1 = (v : Int))).map (fun p => (p.1, g p)) := by
  intro l
  induction l with
  | nil => rfl
  | cons p t ih =>
    by_cases hc : p.1 = (v : Int)
    · simp [hc, ih]
    · simp [hc, ih]

theorem sum_map_div (T : ℚ) :
    ∀ S : List (Int × ℚ), ((S.map (fun p => p.2 / T)).sum) = (S.map Prod.snd).sum / T := by
  intro S
  induction S with
  | nil => simp
  | cons p t ih =>
    rw [List.map_cons, List.map_cons, List.sum_cons, List.sum_cons, ih, add_div]

/-- C3: skin compilation raises an error when some vertex has accumulated
total bone weight ≤ mjMINVAL; otherwise every stored bone weight is the
input weight divided by that vertex's pre-normalization total, so the
weights over all bones sum to 1 at every vertex; in particular input
weights (1, 2) from two bones on the same vertex become (1/3, 2/3). -/
theorem c3_skin_weights :
    (∀ (nvert : Nat) (bones : List Bone) (vw : List ℚ),
      skinAccum nvert bones (List.replicate nvert 0) = .ok vw →
      (∃ v, v < nvert ∧ vw.getD v 0 ≤ mjMINVAL) →
      ∃ i, skinNormalize nvert bones = .error (.zeroWeight i)) ∧
    (∀ (nvert : Nat) (bones bones2 : List Bone),
      skinNormalize nvert bones = .ok bones2 →
      pairsOf bones2 =
        (pairsOf bones).map (fun p => (p.1, p.2 / totalWeight bones p.1.toNat)) ∧
      (∀ v : Nat, v < nvert → mjMINVAL < totalWeight bones v ∧ totalWeight bones2 v = 1)) ∧
    (skinNormalize 1 [([0], [1]), ([0], [2])] =
      .ok [([0], [mkRat 1 3]), ([0], [mkRat 2 3])]) := by
  refine ⟨?_, ?_, by decide⟩
  · intro nvert bones vw haccum hbad
    have hlen : vw.length = nvert :=
      (skinAccum_ok nvert bones _ vw (List.length_replicate nvert 0) haccum).1
    obtain ⟨v, hv, hle⟩ := hbad
    obtain ⟨i, hi⟩ := skinCoverageGo_bad vw 0 ⟨v, by omega, hle⟩
    refine ⟨i, ?_⟩
    unfold skinNormalize
    split
    case h_1 e heq =>
      rw [haccum] at heq
      simp at heq
    case h_2 vw' heq =>
      rw [haccum] at heq
      injection heq with heq
      subst heq
      unfold skinCoverageFrom
      rw [hi]
  · intro nvert bones bones2 h
    unfold skinNormalize at h
    split at h
    · simp at h
    case h_2 vw haccum =>
      split at h
      · simp at h
      case h_2 hcov =>
        injection h with h
        subst h
        obtain ⟨hlen, htot, hrange⟩ :=
          skinAccum_ok nvert bones _ vw (List.length_replicate nvert 0) haccum
        have hvwt : ∀ v : Nat, v < nvert → vw.getD v 0 = totalWeight bones v := by
          intro v hv
          rw [htot v hv, getD_replicate_zero, zero_add]
          rfl
        have hcov2 := skinCoverageGo_none vw 0 hcov
        have hpos : ∀ v : Nat, v < nvert → mjMINVAL < totalWeight bones v := by
          intro v hv
          have := hcov2 v (by omega)
          rw [hvwt v hv] at this
          exact lt_of_not_le this
        have hpairs : pairsOf (bones.map (fun b =>
            (b.1, (b.1.zip b.2).map (fun p => qdiv p.2 (vw.getD p.1.toNat 0))))) =
            (pairsOf bones).map (fun p => (p.1, qdiv p.2 (vw.getD p.1.toNat 0))) := by
          unfold pairsOf
          rw [List.flatMap_map]
          rw [← flatMap_map_comm bones (fun b => b.1.zip b.2)
            (fun p => (p.1, qdiv p.2 (vw.getD p.1.toNat 0)))]
          refine List.flatMap_congr ?_ -- pointwise
          intro b _
          exact zip_map_snd _ b.1 b.2
        have hmain : pairsOf (bones.map (fun b =>
            (b.1, (b.1.zip b.2).map (fun p => qdiv p.2 (vw.getD p.1.toNat 0))))) =
            (pairsOf bones).map (fun p => (p.1, p.2 / totalWeight bones p.1.toNat)) := by
          rw [hpairs]
          refine List.map_congr_left ?_
          intro p hp
          have hr := hrange p hp
          have : vw.getD p.1.toNat 0 = totalWeight bones p.1.toNat :=
            hvwt p.1.toNat (by omega)
          rw [qdiv_eq, this]
        refine ⟨hmain, ?_⟩
        intro v hv
        refine ⟨hpos v hv, ?_⟩
        unfold totalWeight pairSum
        rw [hmain, filter_map_fst]
        have hfilter : ∀ p ∈ (pairsOf bones).filter (fun q => q.1 = (v : Int)),
            p.1.toNat = v := by
          intro p hp
          have := List.of_mem_filter hp
          have hpv : p.1 = (v : Int) := by simpa using this
          omega
        rw [List.map_map]
        have : ((pairsOf bones).filter (fun q => q.1 = (v : Int))).map
            ((fun p : Int × ℚ => p.2) ∘ (fun p : Int × ℚ => (p.1, p.2 / totalWeight bones p.1.toNat))) =
            ((pairsOf bones).filter (fun q => q.1 = (v : Int))).map
            (fun p => p.2 / totalWeight bones v) := by
          refine List.map_congr_left ?_
          intro p hp
          simp only [Function.comp]
          rw [hfilter p hp]
        rw [this, sum_map_div]
        have hT : totalWeight bones v ≠ 0 := by
          have := hpos v hv
          have hm : (0 : ℚ) < mjMINVAL := by norm_num [mjMINVAL]
          exact ne_of_gt (lt_trans hm this)
        rw [div_eq_one_iff_eq hT]
        rfl

theorem c3_witness :
    skinNormalize 1 [([0], [1]), ([0], [2])] =
      .ok [([0], [mkRat 1 3]), ([0], [mkRat 2 3])] ∧
    totalWeight [([0], [mkRat 1 3]), ([0], [mkRat 2 3])] 0 = 1 := by
  refine ⟨by decide, ?_⟩
  exact ((c3_skin_weights.2.1) 1 [([0], [1]), ([0], [2])]
    [([0], [mkRat 1 3]), ([0], [mkRat 2 3])] (by decide) |>.2 0 (by omega)).2

theorem edgeLe_antisymm (a b : Int × Int) (h1 : edgeLe a b) (h2 : edgeLe b a) : a = b := by
  obtain ⟨a1, a2⟩ := a
  obtain ⟨b1, b2⟩ := b
  have : a1 = b1 ∧ a2 = b2 := by
    rcases h1 with h | ⟨he, hle⟩ <;> rcases h2 with h' | ⟨he', hle'⟩ <;>
      simp_all <;> omega
  simp [this.1, this.2]

theorem perm_count (l1 l2 : List (Int × Int)) (h : l1.Perm l2) (x : Int × Int) :
    l1.count x = l2.count x := by
  simp only [List.count]
  exact h.countP_eq _

theorem adjacentDup_count (x : Int × Int) :
    ∀ l : List (Int × Int), adjacentDup l = some x → 2 ≤ l.count x := by
  intro l
  induction l with
  | nil => intro h; simp [adjacentDup] at h
  | cons a t ih =>
    intro h
    cases t with
    | nil => simp [adjacentDup] at h
    | cons b rest =>
      unfold adjacentDup at h
      split at h
      case isTrue hab =>
        injection h with h
        have hax : a = x := h
        have hbx : b = x := by rw [← hab, hax]
        subst hax
        subst hbx
        rw [List.count_cons_self, List.count_cons_self]
        omega
      case isFalse hab =>
        have h2 := ih h
        by_cases hxa : x = a
        · subst hxa
          rw [List.count_cons_self]
          omega
        · rw [List.count_cons_of_ne hxa]
          exact h2

theorem sorted_dup_adjacent :
    ∀ l : List (Int × Int), l.Pairwise edgeLe → ∀ x, 2 ≤ l.count x →
      ∃ y, adjacentDup l = some y := by
  intro l
  induction l with
  | nil =>
    intro _ x h
    simp at h
  | cons a t ih =>
    intro hp x h
    obtain ⟨ha, hpt⟩ := List.pairwise_cons.mp hp
    cases t with
    | nil =>
      by_cases hxa : x = a
      · subst hxa
        rw [List.count_cons_self] at h
        simp at h
      · rw [List.count_cons_of_ne hxa] at h
        simp at h
    | cons b rest =>
      by_cases hab : a = b
      · exact ⟨a, by unfold adjacentDup; rw [if_pos hab]⟩
      · have hx : 2 ≤ (b :: rest).count x := by
          by_cases hax : x = a
          · subst hax
            -- the head x cannot reappear in b :: rest: sortedness and
            -- antisymmetry would force b = x = a, contradicting a ≠ b
            have hmem : x ∈ b :: rest := by
              rw [List.count_cons_self] at h
              exact List.count_pos_iff.mp (by omega)
            rcases List.mem_cons.mp hmem with hxb | hmem2
            · exact absurd hxb hab
            · exfalso
              have h1 : edgeLe x b := ha b (List.mem_cons_self b rest)
              have h2 : edgeLe b x := (List.pairwise_cons.mp hpt).1 x hmem2
              exact hab (edgeLe_antisymm x b h1 h2)
          · rw [List.count_cons_of_ne hax] at h
            exact h
        obtain ⟨y, hy⟩ := ih hpt x hx
        exact ⟨y, by unfold adjacentDup; rw [if_neg hab]; exact hy⟩

/-- C7: after staging, the orientation scan sorts the directed edges
lexicographically and reports the first adjacent duplicate: whenever some
directed edge (a,b) occurs at least twice, invalid_orientation becomes a
1-based pair (a+1, b+1) of such a duplicated edge; without duplicates
nothing is recorded; in either case this step raises nothing, Compile runs
to completion, and the inconsistency surfaces only later through CheckMesh
(shown on the concrete two-face mesh with duplicated edge (0,1)). -/
theorem c7_orientation :
    (∀ edges : List (Int × Int), (∃ e, 2 ≤ edges.count e) →
      ∃ a b, 2 ≤ edges.count (a, b) ∧ orientationPair edges = some (a + 1, b + 1)) ∧
    (∀ edges : List (Int × Int), (∀ e, edges.count e ≤ 1) →
      orientationPair edges = none) ∧
    (compile cfg0 noEngine noEig dupEdgeMesh = .ok dupEdgeCompiled ∧
      dupEdgeCompiled.invalidorientation = (1, 2) ∧ dupEdgeCompiled.processed = true ∧
      checkMesh dupEdgeCompiled = some (.inconsistentOrientation 1 2)) := by
  refine ⟨?_, ?_, by rfl, by rfl, by rfl, by rfl⟩
  · rintro edges ⟨e, he⟩
    have hperm := List.perm_insertionSort edgeLe edges
    have hsorted : (List.insertionSort edgeLe edges).Pairwise edgeLe :=
      List.sorted_insertionSort edgeLe edges
    have hce : 2 ≤ (List.insertionSort edgeLe edges).count e := by
      rw [perm_count _ _ hperm]
      exact he
    obtain ⟨y, hy⟩ := sorted_dup_adjacent _ hsorted e hce
    refine ⟨y.1, y.2, ?_, ?_⟩
    · have := adjacentDup_count y _ hy
      rw [perm_count _ _ hperm] at this
      simpa using this
    · unfold orientationPair
      rw [hy]
      rfl
  · intro edges hle
    cases hd : adjacentDup (List.insertionSort edgeLe edges) with
    | none =>
      unfold orientationPair
      rw [hd]
      rfl
    | some y =>
      exfalso
      have := adjacentDup_count y _ hd
      rw [perm_count _ _ (List.perm_insertionSort edgeLe edges)] at this
      have := hle y
      omega

theorem c7_witness :
    (∀ e : Int × Int, ([((0 : Int), (1 : Int)), (1, 2), (2, 0)] : List (Int × Int)).count e ≤ 1) ∧
    orientationPair [((0 : Int), (1 : Int)), (1, 2), (2, 0)] = none := by
  have hn : ∀ e : Int × Int,
      ([((0 : Int), (1 : Int)), (1, 2), (2, 0)] : List (Int × Int)).count e ≤ 1 := by
    intro e
    by_cases h1 : e = ((0 : Int), (1 : Int))
    · subst h1; decide
    · by_cases h2 : e = ((1 : Int), (2 : Int))
      · subst h2; decide
      · by_cases h3 : e = ((2 : Int), (0 : Int))
        · subst h3; decide
        · rw [List.count_cons_of_ne h1, List.count_cons_of_ne h2,
            List.count_cons_of_ne h3, List.count_nil]
          exact Nat.zero_le 1
  exact ⟨hn, c7_orientation.2.1 _ hn⟩

/- ---------------- C1: MakeGraph error handling ---------------------------- -/

/- When every id of a facet lies in [0, nvert), the facet scan never breaks
   and counts exactly the facet's vertices on top of the running count. -/
theorem scanFacet_cnt (nvert pid : Int) :
    ∀ (f seg : List Int), (∀ p ∈ f, ¬(p < 0 ∨ p ≥ nvert)) →
      ∀ cnt, (scanFacet nvert pid f seg cnt).cnt = cnt + f.length := by
  intro f
  induction f with
  | nil => intro seg _ cnt; rfl
  | cons p rest ih =>
    intro seg hall cnt
    unfold scanFacet
    rw [if_neg (hall p (List.mem_cons_self p rest))]
    have hr : ∀ q ∈ rest, ¬(q < 0 ∨ q ≥ nvert) :=
      fun q hq => hall q (List.mem_cons_of_mem p hq)
    by_cases hc : p ≠ pid ∧ ¬p ∈ seg
    · rw [if_pos hc, ih _ hr]
      simp only [List.length_cons]
      omega
    · rw [if_neg hc, ih _ hr]
      simp only [List.length_cons]
      omega

theorem c1_counterexample :
    makeGraph engineBadFacet 4 [] = .fatal "Qhull did not return triangle" ∧
    compile cfgHull engineBadFacet noEig hullTriMesh =
      .error (.fatal "Qhull did not return triangle") := ⟨rfl, rfl⟩

/-- C1 (amended): MakeGraph's warning-only discard is NOT what happens for
facet-arity violations, and only sometimes for out-of-range ids.  Whenever
the first scanned facet of the first hull vertex (itself in range) counts
other than three vertices, MakeGraph aborts via the fatal mju_error "Qhull
did not return triangle" (so the enclosing Compile does not complete, as
the counterexample shows end to end); that count differs
from three both when the facet's ids are all in range but their number is
not three (the count is the facet's length), and when an out-of-range id
sits in the facet's first or second slot (cnt++ precedes the range check,
so the scan breaks at counts 1 or 2).  When the first hull vertex's own
point id is out of range, the outer scan breaks at once and the size check
aborts fatally with "Wrong size in convex hull graph".  The warning-only
discard is reached only if the vertex scan returns with ok cleared and the
edge accounting still exactly matching numvert + 3·numface — which for
out-of-range facet ids means each sits at a facet's third slot; then the
graph stays null, szgraph stays 0, and Compile completes, as on the
tetrahedron hull carrying one out-of-range id at a facet's third slot. -/
theorem c1_makegraph_amended :
    (∀ (nvert : Int) (engine : List Vec3 → Except Unit Hull) (vert : List Vec3)
        (h : Hull) (v : HullVertex) (rest : List HullVertex) (f : List Int)
        (fr : List (List Int)),
      ¬nvert < 4 → engine vert = .ok h → h.vertices = v :: rest →
      v.facets = f :: fr → ¬(v.pid < 0 ∨ v.pid ≥ nvert) →
      (scanFacet nvert v.pid f [] 0).cnt ≠ 3 →
      makeGraph engine nvert vert = .fatal "Qhull did not return triangle") ∧
    (∀ (nvert pid p : Int) (rest seg : List Int) (cnt : Nat),
      p < 0 ∨ p ≥ nvert → (scanFacet nvert pid (p :: rest) seg cnt).cnt = cnt + 1) ∧
    (∀ (nvert pid p q : Int) (rest seg : List Int) (cnt : Nat),
      ¬(p < 0 ∨ p ≥ nvert) → q < 0 ∨ q ≥ nvert →
      (scanFacet nvert pid (p :: q :: rest) seg cnt).cnt = cnt + 2) ∧
    (∀ (nvert pid : Int) (f seg : List Int) (cnt : Nat),
      (∀ x ∈ f, ¬(x < 0 ∨ x ≥ nvert)) →
      (scanFacet nvert pid f seg cnt).cnt = cnt + f.length) ∧
    (∀ (nvert : Int) (engine : List Vec3 → Except Unit Hull) (vert : List Vec3)
        (h : Hull) (v : HullVertex) (rest : List HullVertex),
      ¬nvert < 4 → engine vert = .ok h → h.vertices = v :: rest →
      v.pid < 0 ∨ v.pid ≥ nvert →
      makeGraph engine nvert vert = .fatal "Wrong size in convex hull graph") ∧
    (∀ (nvert : Int) (h : Hull), makeGraphFill nvert h = .discarded →
      ∃ ea gi el,
        scanVertices nvert h.vertices [] [] [] true = .ok (ea, gi, el, false) ∧
        el.length = h.vertices.length + 3 * h.faces.length) ∧
    (makeGraph engineDiscard 4 [] = .discarded ∧
      compile cfgHull engineDiscard noEig hullTriMesh = .ok hullDiscardCompiled ∧
      hullDiscardCompiled.graph = none ∧ hullDiscardCompiled.szgraph = 0 ∧
      hullDiscardCompiled.processed = true) := by
  refine ⟨?_, ?_, ?_, ?_, ?_, ?_, by rfl, by rfl, by rfl, by rfl, by rfl⟩
  · -- first facet's count ≠ 3 (any reason) → fatal triangle error
    intro nvert engine vert h v rest f fr h4 heng hverts hfacets hpid h3
    have hsvf : scanVertexFacets nvert v.pid v.facets [] true =
        .error "Qhull did not return triangle" := by
      rw [hfacets]
      unfold scanVertexFacets
      rw [if_pos h3]
    have hscan : scanVertices nvert (v :: rest) [] [] [] true =
        .error "Qhull did not return triangle" := by
      unfold scanVertices
      rw [if_neg hpid, hsvf]
    unfold makeGraph
    rw [if_neg h4, heng]
    show makeGraphFill nvert h = _
    unfold makeGraphFill
    rw [hverts, hscan]
  · -- out-of-range id at the facet's first slot: break at count 1
    intro nvert pid p rest seg cnt hp
    unfold scanFacet
    rw [if_pos hp]
  · -- out-of-range id at the facet's second slot: break at count 2
    intro nvert pid p q rest seg cnt hp hq
    unfold scanFacet
    rw [if_neg hp]
    by_cases hc : p ≠ pid ∧ ¬p ∈ seg
    · rw [if_pos hc]
      unfold scanFacet
      rw [if_pos hq]
    · rw [if_neg hc]
      unfold scanFacet
      rw [if_pos hq]
  · -- all ids in range: the count is the facet's length
    intro nvert pid f seg cnt hall
    exact scanFacet_cnt nvert pid f seg hall cnt
  · -- out-of-range point id at the outer vertex scan: fatal size check
    intro nvert engine vert h v rest h4 heng hverts hpid
    have hscan : scanVertices nvert (v :: rest) [] [] [] true =
        .ok ([], [], [], false) := by
      unfold scanVertices
      rw [if_pos hpid]
    unfold makeGraph
    rw [if_neg h4, heng]
    show makeGraphFill nvert h = _
    unfold makeGraphFill
    rw [hverts, hscan]
    have hsz : ([] : List Int).length ≠ (v :: rest).length + 3 * h.faces.length := by
      simp only [List.length_nil, List.length_cons]
      omega
    dsimp only
    rw [if_pos hsz]
  · -- the discard is reached only past a clean scan with exact accounting
    intro nvert h hdis
    unfold makeGraphFill at hdis
    dsimp only at hdis
    split at hdis
    · exact absurd hdis (by simp)
    · rename_i r ea gi el ok hscan
      split at hdis
      · exact absurd hdis (by simp)
      · rename_i hsz
        split at hdis
        · exact absurd hdis (by simp)
        · split at hdis
          · exact absurd hdis (by simp)
          · split at hdis
            · exact absurd hdis (by simp)
            · rename_i hok
              cases ok with
              | true => exact absurd rfl hok
              | false =>
                exact ⟨ea, gi, el, hscan, not_not.mp hsz⟩

theorem c1_witness :
    ¬(4 : Int) < 4 ∧
    engineBadFacet [] = .ok badFacetHull ∧
    badFacetHull.vertices =
      (⟨0, [[1, 2]]⟩ : HullVertex) :: [⟨1, []⟩, ⟨2, []⟩, ⟨3, []⟩] ∧
    (⟨0, [[1, 2]]⟩ : HullVertex).facets = [1, 2] :: [] ∧
    ¬((0 : Int) < 0 ∨ (0 : Int) ≥ 4) ∧
    (scanFacet 4 0 [1, 2] [] 0).cnt ≠ 3 ∧
    makeGraph engineBadFacet 4 [] = .fatal "Qhull did not return triangle" ∧
    ((7 : Int) < 0 ∨ (7 : Int) ≥ 4) ∧
    makeGraph engineBadPid 4 [] = .fatal "Wrong size in convex hull graph" := by
  refine ⟨by decide, rfl, rfl, rfl, by decide, by decide, ?_, by decide, ?_⟩
  · exact c1_makegraph_amended.1 4 engineBadFacet [] badFacetHull ⟨0, [[1, 2]]⟩
      [⟨1, []⟩, ⟨2, []⟩, ⟨3, []⟩] [1, 2] [] (by decide) rfl rfl rfl
      (by decide) (by decide)
  · exact c1_makegraph_amended.2.2.2.2.1 4 engineBadPid [] badPidHull ⟨7, []⟩
      [⟨1, []⟩, ⟨2, []⟩, ⟨3, []⟩] (by decide) rfl rfl (by decide)

end MjMesh
